import Mathlib

/-!
Verification of the ternary image codec core against its specification.

This file gives a shallow embedding, in Lean 4, of the relevant parts of the
C++ sources of the Ternary-image-codec repository, and proves or refutes the
frozen claims about them.  Machine integers of the source are modelled as
`Nat` (with explicit `% 2^w` where wrap-around matters), `std::vector` and
`std::array` as `List Nat`, `std::string` as a list of byte values, and
fallible operations return `Option` or a `Bool` flag next to their outputs.
Each definition is translated from the named C++ function; comments record
the correspondence where the translation is not line-by-line.
-/

namespace TIC

/-! ## GF(27) arithmetic (part_013, section 4)

Elements are indices 0..26, three unbalanced ternary digits, little endian:
value = d0 + 3*d1 + 9*d2.  `gf27_add_u`, `gf27_sub_u`, `gf27_mul_poly`
mirror the functions of the same names; the C++ `sub3` helper on digit
values x,y < 3 computes `(x - y) mod 3`, here written `(3 + x - y) % 3`. -/

def gf27_add_u (a b : Nat) : Nat :=
  ((a % 3 + b % 3) % 3) + 3 * ((a / 3 % 3 + b / 3 % 3) % 3)
    + 9 * ((a / 9 % 3 + b / 9 % 3) % 3)

def sub3 (x y : Nat) : Nat := (3 + x - y) % 3

def gf27_sub_u (a b : Nat) : Nat :=
  sub3 (a % 3) (b % 3) + 3 * sub3 (a / 3 % 3) (b / 3 % 3)
    + 9 * sub3 (a / 9 % 3) (b / 9 % 3)

/-- Polynomial multiplication modulo p(x) = x^3 + 2x + 1 over GF(3),
reducing x^3 ≡ x + 2 and x^4 ≡ x^2 + 2x, exactly as `gf27_mul_poly`. -/
def gf27_mul_poly (a b : Nat) : Nat :=
  if a = 0 ∨ b = 0 then 0
  else
    let a0 := a % 3; let a1 := a / 3 % 3; let a2 := a / 9 % 3
    let b0 := b % 3; let b1 := b / 3 % 3; let b2 := b / 9 % 3
    let r0 := (a0 * b0) % 3
    let r1 := (a0 * b1 + a1 * b0) % 3
    let r2 := (a0 * b2 + a1 * b1 + a2 * b0) % 3
    let r3 := (a1 * b2 + a2 * b1) % 3
    let r4 := (a2 * b2) % 3
    let r1 := (r1 + r3) % 3
    let r0 := (r0 + 2 * r3) % 3
    let r2 := (r2 + r4) % 3
    let r1 := (r1 + 2 * r4) % 3
    r0 + 3 * r1 + 9 * r2

/-- Iterated multiplication: `powIter g i` is the running value `x` of the
loop in `GF27Context::order_of` after `i` multiplications by `g`. -/
def powIter (g : Nat) : Nat → Nat
  | 0 => 1
  | i + 1 => gf27_mul_poly (powIter g i) g

/-- `GF27Context::order_of`: the first i in 1..26 with g^i = 1, else -1. -/
def order_of (g : Nat) : Int :=
  if g = 0 ∨ g = 1 then -1
  else
    match (List.range 26).find? (fun i => powIter g (i + 1) == 1) with
    | some i => ((i + 1 : Nat) : Int)
    | none => -1

/-- Primitive search of `GF27Context::init`: smallest c in 2..26 with
order 26, falling back to 3. -/
def findPrim : Nat :=
  match (List.range 25).find? (fun c => order_of (c + 2) == 26) with
  | some c => c + 2
  | none => 3

/-- The log/exp/inv tables of `GF27Tables`.  The 27×27 `mul` table is built
pointwise as `gf27_mul_poly`, so multiplications below use that function
directly instead of carrying the table. -/
structure GF27Tables where
  exp : List Nat
  logt : List Int
  inv : List Nat
  primitive : Nat
deriving DecidableEq, Repr

/-- `GF27Context::init`: exp[0]=1, exp[i]=exp[i-1]·prim with log updated at
each step (the C++ replicates exp cyclically to 78 entries; only indices
0..25 are ever read through `pow_alpha`, so 26 entries are kept), and
inv[a] = exp[(26 − log a) % 26] with inv[0] = 0. -/
def gfInit : GF27Tables :=
  let prim := findPrim
  let st0 : List Nat × List Int := ([1], (List.replicate 27 (-1 : Int)).set 1 0)
  let st := (List.range 25).foldl
    (fun st j =>
      let e := gf27_mul_poly (st.1.getLastD 1) prim
      (st.1 ++ [e], st.2.set e ((j + 1 : Nat) : Int)))
    st0
  let invT := (List.range 27).map (fun a =>
    if a = 0 then 0
    else st.1.getD ((26 - (st.2.getD a 0).toNat) % 26) 0)
  { exp := st.1, logt := st.2, inv := invT, primitive := prim }

/-- Literal form of the tables produced by `gfInit` (primitive α = 3,
i.e. the polynomial x); proved equal to `gfInit` below. -/
def gfLit : GF27Tables :=
  { exp := [1, 3, 9, 5, 15, 23, 13, 17, 20, 4, 12, 14, 11, 2, 6, 18, 7, 21,
            16, 26, 22, 10, 8, 24, 25, 19]
    logt := [-1, 0, 13, 1, 9, 3, 14, 16, 22, 2, 21, 12, 10, 6, 11, 4, 18, 7,
             15, 25, 8, 17, 20, 5, 23, 24, 19]
    inv := [0, 1, 2, 19, 21, 24, 11, 12, 15, 25, 23, 6, 7, 22, 18, 8, 20, 26,
            14, 3, 16, 4, 13, 10, 5, 9, 17]
    primitive := 3 }

theorem gfInit_eq_gfLit : gfInit = gfLit := by decide

/-- `GF27Context::pow_alpha`: exp[((e % 26) + 26) % 26]; the Int `emod`
form agrees with the C++ truncating `%` composed with the normalisation. -/
def powAlpha (t : GF27Tables) (e : Int) : Nat :=
  t.exp.getD ((e % 26 + 26) % 26).toNat 0

/-- `GF27Context::inv` (table lookup). -/
def ginv (t : GF27Tables) (a : Nat) : Nat := t.inv.getD a 0

/-! ## Reed–Solomon codec over GF(27) (part_013, `RSCodec`) -/

structure RSParams where
  n : Nat
  k : Nat
deriving DecidableEq, Repr

/-- One step of `RSCodec::build_generator`: multiply g(x) by (x − root).
ng[j] collects g[j]·(0 − root) and g[j−1]. -/
def rsGenStep (g : List Nat) (root : Nat) : List Nat :=
  (List.range (g.length + 1)).map fun j =>
    gf27_add_u
      (if j < g.length then gf27_mul_poly (g.getD j 0) (gf27_sub_u 0 root) else 0)
      (if 1 ≤ j then g.getD (j - 1) 0 else 0)

/-- `RSCodec::build_generator`: g(x) = Π_{i=1..r} (x − α^i), low→high. -/
def rsGenerator (t : GF27Tables) (p : RSParams) : List Nat :=
  (List.range (p.n - p.k)).foldl
    (fun g i => rsGenStep g (powAlpha t ((i + 1 : Nat) : Int))) [1]

/-- `RSCodec::encode_block`: data in positions 0..k−1 of T, then for each
i ascending subtract coef·x^i·g(x) with coef the current T[i]; output is
the data followed by T[k..n−1]. -/
def encode_block (t : GF27Tables) (p : RSParams) (data : List Nat) : List Nat :=
  let r := p.n - p.k
  let g := rsGenerator t p
  let T0 := (List.range p.n).map (fun i => if i < p.k then data.getD i 0 else 0)
  let T := (List.range p.k).foldl
    (fun T i =>
      let coef := T.getD i 0
      if coef = 0 then T
      else (List.range T.length).map (fun idx =>
        if i ≤ idx ∧ idx ≤ i + r then
          gf27_sub_u (T.getD idx 0) (gf27_mul_poly (g.getD (idx - i) 0) coef)
        else T.getD idx 0))
    T0
  (List.range p.n).map (fun i => if i < p.k then data.getD i 0 else T.getD i 0)

/-- Horner evaluation loop shared by `poly_eval`, the Chien search and the
Forney numerator/denominator: for d descending, acc = acc·x + p[d]. -/
def hornerEval (p : List Nat) (x : Nat) : Nat :=
  p.reverse.foldl (fun acc coef => gf27_add_u (gf27_mul_poly acc x) coef) 0

/-- Berlekamp–Massey running state (σ, B, L, m) of `RSCodec::decode_block`. -/
structure BMSt where
  sigma : List Nat
  B : List Nat
  L : Nat
  m : Nat

/-- The discrepancy δ at iteration nS: starts at S[nS], adding
σ[i]·S[nS−i] for i = 1..L whenever i < |σ|. -/
def bmDelta (S sigma : List Nat) (L nS : Nat) : Nat :=
  (List.range L).foldl
    (fun d i0 =>
      let i := i0 + 1
      if i < sigma.length then
        gf27_add_u d (gf27_mul_poly (sigma.getD i 0) (S.getD (nS - i) 0))
      else d)
    (S.getD nS 0)

/-- One Berlekamp–Massey iteration of `RSCodec::decode_block`. -/
def bmStep (t : GF27Tables) (S : List Nat) (st : BMSt) (nS : Nat) : BMSt :=
  let delta := bmDelta S st.sigma st.L nS
  if delta = 0 then { st with m := st.m + 1 }
  else
    let T := st.sigma
    let dB := st.B.map (fun x => gf27_mul_poly delta x)
    let xmdB := List.replicate st.m 0 ++ dB
    let len := max st.sigma.length xmdB.length
    let ns := (List.range len).map (fun i =>
      gf27_sub_u (st.sigma.getD i 0) (xmdB.getD i 0))
    if 2 * st.L ≤ nS then
      { sigma := ns, B := T.map (fun x => gf27_mul_poly x (ginv t delta)),
        L := nS + 1 - st.L, m := 1 }
    else { st with sigma := ns, m := st.m + 1 }

/-- Digit-wise multiplication by 2 in GF(3), used for the characteristic-3
formal derivative (the `m2` lambda of `decode_block`). -/
def mulDig2 (a : Nat) : Nat :=
  (2 * (a % 3)) % 3 + 3 * ((2 * (a / 3 % 3)) % 3) + 9 * ((2 * (a / 9 % 3)) % 3)

/-- Forney correction loop of `RSCodec::decode_block`: corrections are
applied to the buffer one error position at a time; a zero denominator
aborts with the corrections made so far left in place. -/
def forneyGo (t : GF27Tables) (Om sp : List Nat) (k : Nat) :
    List Nat → List Nat → List Nat × Option (List Nat)
  | [], c => (c, some (c.take k))
  | pos :: rest, c =>
    let Xin := powAlpha t (-(Int.ofNat pos))
    let num := hornerEval Om Xin
    let den := hornerEval sp Xin
    if den = 0 then (c, none)
    else
      forneyGo t Om sp k rest
        (c.set pos (gf27_add_u (c.getD pos 0)
          (gf27_mul_poly (gf27_sub_u 0 num) (ginv t den))))

/-- `RSCodec::decode_block` on buffer `c` (length n).  Returns the final
state of the in-out buffer together with `some` data (first k symbols of
the corrected buffer) on success, `none` on failure.  The C++ function
returns `bool` and writes `out_k` only on success. -/
def decode_block (t : GF27Tables) (p : RSParams) (c : List Nat) :
    List Nat × Option (List Nat) :=
  let n := p.n
  let k := p.k
  let r := n - k
  let tcap := r / 2
  let S := (List.range r).map (fun j =>
    (List.range n).foldl
      (fun acc i =>
        gf27_add_u acc (gf27_mul_poly (c.getD i 0)
          (powAlpha t (((j + 1) * i % 26 : Nat) : Int))))
      0)
  if S.all (fun s => s = 0) then (c, some (c.take k))
  else
    let st := (List.range r).foldl (bmStep t S) ⟨[1], [1], 0, 1⟩
    let sigma := st.sigma
    let Sx := S ++ [0]
    let Omega0 := (List.range Sx.length).foldl
      (fun Om i =>
        (List.range sigma.length).foldl
          (fun Om j =>
            Om.set (i + j) (gf27_add_u (Om.getD (i + j) 0)
              (gf27_mul_poly (Sx.getD i 0) (sigma.getD j 0))))
          Om)
      (List.replicate (Sx.length + sigma.length - 1) 0)
    let Omega := if Omega0.length > r then Omega0.take r else Omega0
    let errPos := (List.range n).filter
      (fun i => hornerEval sigma (powAlpha t (-(Int.ofNat i))) = 0)
    if errPos.length > tcap then (c, none)
    else
      let sigmap :=
        if sigma.length ≥ 2 then
          (List.range (sigma.length - 1)).map (fun i0 =>
            let i := i0 + 1
            if i % 3 = 0 then 0
            else if i % 3 = 1 then sigma.getD i 0
            else mulDig2 (sigma.getD i 0))
        else [0]
      forneyGo t Omega sigmap k errPos c

/-- RS profiles P1..P4 and the header code (part_013, `rs_params_for`). -/
def rsP1 : RSParams := ⟨26, 24⟩
def rsP2 : RSParams := ⟨26, 22⟩
def rsP3 : RSParams := ⟨26, 20⟩
def rsP4 : RSParams := ⟨26, 18⟩
def rsHdr : RSParams := ⟨26, 18⟩

/-! ### Concrete evaluations for claims C1 and C3 -/

/-- The deterministic data vector of `selftest_rs_unit` for k = 24:
data[i] = (i·5 + 7) % 27. -/
def c1data : List Nat := (List.range 24).map (fun i => (i * 5 + 7) % 27)

/-- The input of the C3 failing run: an RS(26,20) buffer on which the
decoder performs one Forney correction and then fails on a zero
denominator. -/
def c3input : List Nat :=
  [23, 13, 22, 8, 13, 10, 24, 15, 6, 22, 26, 15, 12, 22, 13, 2, 2, 4, 6, 4,
   7, 23, 0, 3, 8, 4]

/-! ## Pack/unpack of 3 trits per GF(27) symbol (part_013, section 1) -/

/-- `pack3_utrits_to_gf27`: t0 + 3·t1 + 9·t2. -/
def pack3_utrits_to_gf27 (t0 t1 t2 : Nat) : Nat := t0 + 3 * t1 + 9 * t2

/-- `unpack_gf27_to3_utrits`: the three base-3 digits of s, little endian. -/
def unpack_gf27_to3 (s : Nat) : List Nat := [s % 3, s / 3 % 3, s / 9 % 3]

/-! ## Ternary CRC-12 and the superframe header (part_013, section 3) -/

/-- One LFSR step of `CRC3::compute_remainder_12trits`: feedback
fb = (in + reg[11]) % 3 enters positions 0, 3, 4, 7 (added mod 3), the
others shift from the previous neighbour. -/
def crcStep (reg : List Nat) (inp : Nat) : List Nat :=
  let fb := (inp + reg.getD 11 0) % 3
  [fb, reg.getD 0 0, reg.getD 1 0,
   (reg.getD 2 0 + fb) % 3, (reg.getD 3 0 + fb) % 3,
   reg.getD 4 0, reg.getD 5 0, (reg.getD 6 0 + fb) % 3,
   reg.getD 7 0, reg.getD 8 0, reg.getD 9 0, reg.getD 10 0]

/-- `CRC3::compute_remainder_12trits`: feed the message trits, then 12
zero trits (multiplication by x^12); the register is the remainder. -/
def crc12 (msg : List Nat) : List Nat :=
  (List.replicate 12 0).foldl crcStep (msg.foldl crcStep (List.replicate 12 0))

/-- The `SuperframeHeader` struct.  Field widths of the C++ struct
(uint16/uint8/uint32) are modelled as `Nat`; every field is reduced
mod 27 or mod 3 by `HeaderCodec::pack` before use, so the packing below
is the image of the C++ one on in-range values and total on all of `Nat`. -/
structure SuperframeHeader where
  magic : Nat := 0xA2
  version : Nat := 1
  profile : Nat := 1
  uep : List Nat := List.replicate 9 0
  tileW : Nat := 0
  tileH : Nat := 0
  seedA : Nat := 1
  seedB : Nat := 1
  seedS0 : Nat := 1
  band_map_hash : Nat := 0
  frame_seq : Nat := 0
  beacon_enabled : Bool := false
  beacon_slot : Nat := 0
  beacon_period : Nat := 0
deriving DecidableEq, Repr

/-- The 27 symbols written by `HeaderCodec::pack` before the CRC symbols
are filled in (indices 20, 21, 22, 26 hold the placeholder 0).  Each
`at(i,v)` of the source stores v % 27; values already reduced mod 27 are
stored unchanged, so the second reduction is dropped here.  The UEP
triple u0 folds to bp0·9 + bp1·3 + bp2 (each mod 3). -/
def headerBaseSyms (h : SuperframeHeader) : List Nat :=
  let bp := fun i => h.uep.getD i 0 % 3
  [h.magic % 27, h.magic / 27 % 27,
   h.version % 27,
   h.profile % 27,
   bp 0 * 9 + bp 1 * 3 + bp 2,
   bp 3 * 9 + bp 4 * 3 + bp 5,
   bp 6 * 9 + bp 7 * 3 + bp 8,
   h.tileW % 27, h.tileH % 27,
   h.seedA % 27, h.seedB % 27, h.seedS0 % 27,
   0,
   h.band_map_hash % 27, h.band_map_hash / 27 % 27, h.band_map_hash / 729 % 27,
   0,
   h.frame_seq % 27, h.frame_seq / 27 % 27, h.frame_seq / 729 % 27,
   0, 0, 0,
   (if h.beacon_enabled then 1 else 0),
   h.beacon_slot % 27,
   min h.beacon_period 26 % 27,
   0]

/-- True on the CRC-bearing indices 20, 21, 22, 26. -/
def isCrcSlot (i : Nat) : Bool := i == 20 || i == 21 || i == 22 || i == 26

/-- The 69 trits of the 23 non-CRC symbols in index order (the `push_sym`
loop shared by `HeaderCodec::pack` and `HeaderCodec::check_crc`). -/
def nonCrcTrits (p : List Nat) : List Nat :=
  (((List.range 27).filter (fun i => !(isCrcSlot i))).map
    (fun i => unpack_gf27_to3 (p.getD i 0))).flatten

/-- `HeaderCodec::pack`: compute the CRC-12 remainder over the non-CRC
trits and write its four 3-trit symbols at indices 20, 21, 22, 26. -/
def header_pack (h : SuperframeHeader) : List Nat :=
  let base := headerBaseSyms h
  let rem := crc12 (nonCrcTrits base)
  let remSym := fun i =>
    pack3_utrits_to_gf27 (rem.getD (i * 3) 0) (rem.getD (i * 3 + 1) 0)
      (rem.getD (i * 3 + 2) 0)
  ((((base.set 20 (remSym 0 % 27)).set 21 (remSym 1 % 27)).set 22
      (remSym 2 % 27)).set 26 (remSym 3 % 27))

/-- `HeaderCodec::check_crc`: recompute the remainder over the non-CRC
trits and compare with the 12 trits carried at indices 20, 21, 22, 26. -/
def header_check (p : List Nat) : Bool :=
  let rem := crc12 (nonCrcTrits p)
  let hdr := unpack_gf27_to3 (p.getD 20 0) ++ unpack_gf27_to3 (p.getD 21 0)
    ++ unpack_gf27_to3 (p.getD 22 0) ++ unpack_gf27_to3 (p.getD 26 0)
  rem == hdr

/-- Base-3 digits of a UEP symbol, as `dec_triplet` of
`HeaderCodec::unpack`. -/
def decTriplet (v : Nat) : List Nat := [v % 3, v / 3 % 3, v / 9 % 3]

/-- `HeaderCodec::unpack` (the fields used by the decode pipeline). -/
def header_unpack (p : List Nat) : SuperframeHeader :=
  let rd := fun i => p.getD i 0 % 27
  { magic := rd 0 + 27 * rd 1
    version := rd 2
    profile := if rd 3 % 5 = 4 then 4 else rd 3 % 5
    uep := decTriplet (rd 4) ++ decTriplet (rd 5) ++ decTriplet (rd 6)
    tileW := rd 7, tileH := rd 8
    seedA := rd 9, seedB := rd 10, seedS0 := rd 11
    band_map_hash := rd 13 + 27 * rd 14 + 729 * rd 15
    frame_seq := rd 17 + 27 * rd 18 + 729 * rd 19
    beacon_enabled := rd 23 != 0
    beacon_slot := rd 24 % 9
    beacon_period := rd 25 }

/-! ## 2D boustrophedon interleaving (part_013, section 6)

Both directions process the symbol stream in tiles of `tw·th` cells; the
per-tile scan order is encoded as the list of valid in-tile indices
`r·tw + c`: even rows left→right (the loop runs while the index is below
`take`, i.e. a `takeWhile`), odd rows right→left (each index tested, a
`filter` over the reversed column range). -/

def rowScan (tw takeN r : Nat) : List Nat :=
  if r % 2 = 0 then
    ((List.range tw).takeWhile (fun c => r * tw + c < takeN)).map (fun c => r * tw + c)
  else
    (((List.range tw).reverse).filter (fun c => r * tw + c < takeN)).map
      (fun c => r * tw + c)

/-- The boustrophedon scan of one tile restricted to the `takeN` valid
cells. -/
def tileScan (tw th takeN : Nat) : List Nat :=
  ((List.range th).map (rowScan tw takeN)).flatten

/-- The per-tile output of `interleave2D_boustrophedon`: the valid cells
of the tile, read in scan order. -/
def interleaveTile (tw th : Nat) (tmp : List Nat) : List Nat :=
  (tileScan tw th tmp.length).map (fun idx => tmp.getD idx 0)

/-- The assignment loop of `deinterleave2D_boustrophedon` for one tile:
walk the scan and write the next input symbol at each scanned index. -/
def fillScan (inp : List Nat) : List Nat → Nat → List Nat → List Nat
  | [], _, tmp => tmp
  | idx :: rest, k, tmp => fillScan inp rest (k + 1) (tmp.set idx (inp.getD k 0))

/-- The per-tile output of `deinterleave2D_boustrophedon`. -/
def deinterleaveTile (tw th : Nat) (chunk : List Nat) : List Nat :=
  fillScan chunk (tileScan tw th chunk.length) 0 (List.replicate chunk.length 0)

/-- Tile loop of `interleave2D_boustrophedon`.  The `while i < size` loop
is a structural recursion on a fuel bound: each pass consumes a full or
final partial tile of `min (tw·th) remaining ≥ 1` symbols, so any fuel at
least the stream length reaches the empty stream. -/
def interleave2DGo (tw th : Nat) : Nat → List Nat → List Nat
  | 0, syms => syms
  | fuel + 1, syms =>
    if syms = [] then []
    else
      interleaveTile tw th (syms.take (tw * th))
        ++ interleave2DGo tw th fuel (syms.drop (tw * th))

/-- `interleave2D_boustrophedon`: tiles of `tw·th` symbols, the last one
possibly partial; an empty tile geometry leaves the stream unchanged. -/
def interleave2D (tw th : Nat) (syms : List Nat) : List Nat :=
  if tw = 0 ∨ th = 0 then syms
  else interleave2DGo tw th syms.length syms

/-- Tile loop of `deinterleave2D_boustrophedon` (same fuel scheme). -/
def deinterleave2DGo (tw th : Nat) : Nat → List Nat → List Nat
  | 0, syms => syms
  | fuel + 1, syms =>
    if syms = [] then []
    else
      deinterleaveTile tw th (syms.take (tw * th))
        ++ deinterleave2DGo tw th fuel (syms.drop (tw * th))

/-- `deinterleave2D_boustrophedon`. -/
def deinterleave2D (tw th : Nat) (syms : List Nat) : List Nat :=
  if tw = 0 ∨ th = 0 then syms
  else deinterleave2DGo tw th syms.length syms

/-! ## Profiles, scrambler, beacons (part_013, section 2) -/

/-- `ProfileID` values: P1..P4 are 0..3, P5 is 4, RAW is 0xFF. -/
def profRAW : Nat := 0xFF
def profP2 : Nat := 1
def profP5 : Nat := 4

/-- `rs_params_for`. -/
def rs_params_for (p : Nat) : RSParams :=
  if p = 0 then ⟨26, 24⟩
  else if p = 1 then ⟨26, 22⟩
  else if p = 2 then ⟨26, 20⟩
  else if p = 3 then ⟨26, 18⟩
  else if p = 4 then ⟨26, 22⟩
  else ⟨26, 22⟩

structure ScramblerSeed where
  a : Nat := 1
  b : Nat := 1
  s0 : Nat := 1
deriving DecidableEq, Repr

/-- Digit-wise addition of the scrambler state to a symbol (the loop body
of `scramble_symbol`; `st` is already reduced mod 3). -/
def addStDigits (s st : Nat) : Nat :=
  pack3_utrits_to_gf27 ((s % 3 + st) % 3) ((s / 3 % 3 + st) % 3) ((s / 9 % 3 + st) % 3)

/-- Digit-wise subtraction for `descramble_symbol`: (3 + x − st % 3) % 3. -/
def subStDigits (s st : Nat) : Nat :=
  pack3_utrits_to_gf27 ((3 + s % 3 - st % 3) % 3) ((3 + s / 3 % 3 - st % 3) % 3)
    ((3 + s / 9 % 3 - st % 3) % 3)

/-- `scramble_symbol` applied along a stream: the state advances as
st ← (a·st + b) % 3 before each symbol. -/
def scrambleList (seed : ScramblerSeed) : Nat → List Nat → List Nat
  | _, [] => []
  | st, s :: rest =>
    let st' := (seed.a * st + seed.b) % 3
    addStDigits s st' :: scrambleList seed st' rest

/-- `descramble_symbol` applied along a stream. -/
def descrambleList (seed : ScramblerSeed) : Nat → List Nat → List Nat
  | _, [] => []
  | st, s :: rest =>
    let st' := (seed.a * st + seed.b) % 3
    subStDigits s st' :: descrambleList seed st' rest

structure SparseBeaconCfg where
  words_period : Nat := 0
  band_slot : Nat := 0
  enabled : Bool := false
deriving DecidableEq, Repr

/-- `encode_beacon_symbol`: (profile + 5·(fsq mod 5) + 15·(hflags mod 3)) mod 27. -/
def encode_beacon_symbol (profile fsq hflags : Nat) : Nat :=
  (profile + 5 * (fsq % 5) + 15 * (hflags % 3)) % 27

/-- Beacon insertion loop of `encode_profile_from_raw`: word by word, on
every `period`-th word the beacon symbol occupies `band_slot` and the data
symbol stream resumes afterwards (missing symbols padded with 0).  `fuel`
bounds the outer `while`; each pass consumes at least 8 symbols, so the
stream length is sufficient fuel. -/
def beaconInsertGo (beaconSym : Nat) (period slot : Nat) :
    Nat → Nat → List Nat → List Nat
  | 0, _, _ => []
  | _ + 1, _, [] => []
  | fuel + 1, wordIdx, body =>
    let ins := wordIdx % period = 0
    let step := (List.range 9).foldl
      (fun (acc : List Nat × List Nat) s =>
        if ins ∧ s = slot then (acc.1 ++ [beaconSym], acc.2)
        else match acc.2 with
          | [] => (acc.1 ++ [0], [])
          | x :: xs => (acc.1 ++ [x], xs))
      ([], body)
    step.1 ++ beaconInsertGo beaconSym period slot fuel (wordIdx + 1) step.2

/-- Beacon removal loop of `descramble_and_remove_beacons_from_words`:
word by word, drop the beacon slot of every `period`-th word; the inner
loop also stops at the end of the stream. -/
def beaconRemoveGo (period slot : Nat) : Nat → Nat → List Nat → List Nat
  | 0, _, _ => []
  | _ + 1, _, [] => []
  | fuel + 1, wordIdx, sy =>
    let isb := wordIdx % period = 0
    let kept := (sy.take 9).enum.filter (fun pr => !(isb ∧ pr.1 = slot : Bool))
    kept.map (·.2) ++ beaconRemoveGo period slot fuel (wordIdx + 1) (sy.drop 9)

/-! ## Pipeline contexts and RAW ↔ profile APIs (part_013, section 7) -/

structure EncoderConfig where
  profile : Nat := profP2
  uep : List Nat := List.replicate 9 0
  tileW : Nat := 0
  tileH : Nat := 0
  seed : ScramblerSeed := {}
  beacon : SparseBeaconCfg := {}
  superframe_words : Nat := 8192
deriving DecidableEq, Repr

/-- The default `EncoderContext` configuration: profile P2, uniform UEP
index 1 (`uep_uniform(cfg.uep, 1)`), default seed (1,1,1), no beacon. -/
def defaultEncCfg : EncoderConfig := { uep := List.replicate 9 1 }

/-- Greedy 3-trit grouping: full groups become symbols, the leftover
(< 3 trits) is returned as carry.  This is the inner chunking of the
"RAW words → useful symbols" loop of `encode_profile_from_raw`. -/
def chunk3 : List Nat → List Nat × List Nat
  | t0 :: t1 :: t2 :: rest =>
    let pr := chunk3 rest
    (pack3_utrits_to_gf27 t0 t1 t2 :: pr.1, pr.2)
  | rest => ([], rest)

/-- The 27 trits of a `Word27` in slot order (3 per symbol). -/
def wordTrits (w : List Nat) : List Nat := (w.map unpack_gf27_to3).flatten

/-- The "RAW words → useful symbols" extraction of
`encode_profile_from_raw`: 26 trits per word (the last trit of each word
is skipped), grouped into 3-trit symbols with a carry across words, the
final carry zero-padded.  The per-word carry logic of the source is the
greedy grouping `chunk3` applied to the carried trits followed by the
word body. -/
def rawToUseful (raw : List (List Nat)) : List Nat :=
  let st := raw.foldl
    (fun (acc : List Nat × List Nat) w =>
      let pr := chunk3 (acc.2 ++ (wordTrits w).take 26)
      (acc.1 ++ pr.1, pr.2))
    ([], [])
  if st.2 = [] then st.1
  else st.1 ++ [pack3_utrits_to_gf27 (st.2.getD 0 0) (st.2.getD 1 0) (st.2.getD 2 0)]

/-- Round-robin deal of the useful symbols into 9 bands
(`bands[i % 9].push_back(sy[i])`). -/
def dealBands (syms : List Nat) : List (List Nat) :=
  (List.range 9).map (fun b => (syms.enum.filter (fun pr => pr.1 % 9 = b)).map (·.2))

/-- Per-band RS encoding of `encode_profile_from_raw`: successive k-blocks
while a full block remains (the guard `0 < p.k` makes the model total; the
profiles used have k ≥ 18). -/
def encBandGo (t : GF27Tables) (p : RSParams) : Nat → List Nat → List Nat
  | 0, _ => []
  | fuel + 1, band =>
    if 0 < p.k ∧ p.k ≤ band.length then
      encode_block t p (band.take p.k) ++ encBandGo t p fuel (band.drop p.k)
    else []

def encBand (t : GF27Tables) (p : RSParams) (band : List Nat) : List Nat :=
  encBandGo t p (band.length + 1) band

/-- Per-band RS decoding of `demap_and_rsdecode_bands_from_words`:
successive n-blocks; a block failure fails the whole call. -/
def decBandGo (t : GF27Tables) (p : RSParams) : Nat → List Nat → Option (List Nat)
  | 0, _ => some []
  | fuel + 1, band =>
    if 0 < p.n ∧ p.n ≤ band.length then
      match (decode_block t p (band.take p.n)).2 with
      | none => none
      | some kd =>
        match decBandGo t p fuel (band.drop p.n) with
        | none => none
        | some rest => some (kd ++ rest)
    else some []

def decBand (t : GF27Tables) (p : RSParams) (band : List Nat) : Option (List Nat) :=
  decBandGo t p (band.length + 1) band

/-- The RS codec selected for band `b` by the UEP layout
(`band_profile[b] % 4` indexes P1..P4). -/
def bandParams (uep : List Nat) (b : Nat) : RSParams :=
  rs_params_for (uep.getD b 0 % 4)

/-- Pack a symbol stream into `Word27`s, 9 symbols per word, zero-padded
(`out_profile_words` packing loop of `encode_profile_from_raw`). -/
def packWords (all : List Nat) : List (List Nat) :=
  (List.range ((all.length + 8) / 9)).map
    (fun w => (List.range 9).map (fun s => all.getD (w * 9 + s) 0))

/-- `encode_profile_from_raw` with an `EncoderContext` holding tables `t`
and configuration `cfg`. -/
def encode_profile_from_raw (t : GF27Tables) (cfg : EncoderConfig)
    (raw : List (List Nat)) : List (List Nat) :=
  if cfg.profile = profRAW then raw
  else
    let syms0 := rawToUseful raw
    let symsU :=
      if cfg.profile = profP5 ∧ cfg.tileW ≠ 0 ∧ cfg.tileH ≠ 0 then
        interleave2D cfg.tileW cfg.tileH syms0
      else syms0
    let bands := dealBands symsU
    let body0 := ((List.range 9).map
      (fun b => encBand t (bandParams cfg.uep b) (bands.getD b []))).flatten
    let body1 := scrambleList cfg.seed (cfg.seed.s0 % 3) body0
    let body :=
      if cfg.beacon.enabled ∧ cfg.beacon.words_period > 0 then
        beaconInsertGo
          (encode_beacon_symbol cfg.profile (cfg.superframe_words % 25) 0)
          cfg.beacon.words_period cfg.beacon.band_slot
          (body1.length + 1) 0 body1
      else body1
    let hdr : SuperframeHeader :=
      { profile := cfg.profile, uep := cfg.uep, tileW := cfg.tileW,
        tileH := cfg.tileH, seedA := cfg.seed.a, seedB := cfg.seed.b,
        seedS0 := cfg.seed.s0, beacon_enabled := cfg.beacon.enabled,
        beacon_slot := cfg.beacon.band_slot,
        beacon_period := cfg.beacon.words_period }
    let hp := header_pack hdr
    let dataA := hp.take 18
    let dataB := (hp.drop 18).take 9 ++ List.replicate 9 0
    let encA := encode_block t rsHdr dataA
    let encB := encode_block t rsHdr dataB
    packWords (encA ++ encB ++ body)

/-- `read_and_decode_header_from_words`: 6 words = 54 symbols, two
RS(26,18) blocks of 26 symbols each, then the CRC check; returns the
header and the advanced cursor handled by the caller as `drop 6`. -/
def readHeaderFromWords (t : GF27Tables) (words : List (List Nat)) :
    Option SuperframeHeader :=
  if words.length < 6 then none
  else
    let syms := ((words.take 6).map (fun w => w.take 9)).flatten
    let blkA := syms.take 26
    let blkB := (syms.drop 26).take 26
    match (decode_block t rsHdr blkA).2 with
    | none => none
    | some dA =>
      match (decode_block t rsHdr blkB).2 with
      | none => none
      | some dB =>
        let hp := dA ++ dB.take 9
        if header_check hp then some (header_unpack hp) else none

/-- `descramble_and_remove_beacons_from_words` on the symbol stream:
descramble every symbol, then drop beacon slots, then regroup complete
words (a trailing group of fewer than 9 symbols is discarded by
`words.assign(nw, ...)`). -/
def descrambleRemoveBeacons (hdr : SuperframeHeader) (words : List (List Nat)) :
    List (List Nat) :=
  let sy0 := (words.map (fun w => w.take 9)).flatten
  let sy1 := descrambleList ⟨hdr.seedA, hdr.seedB, hdr.seedS0⟩ (hdr.seedS0 % 3) sy0
  let sy :=
    if hdr.beacon_enabled ∧ hdr.beacon_period > 0 then
      beaconRemoveGo hdr.beacon_period hdr.beacon_slot (sy1.length + 1) 0 sy1
    else sy1
  packWords (sy.take (sy.length / 9 * 9))

/-- `demap_and_rsdecode_bands_from_words`: flatten the body words, deal
round-robin into 9 bands, RS-decode each band block-wise with the UEP
profile. -/
def demapAndDecodeBands (t : GF27Tables) (hdr : SuperframeHeader)
    (body : List (List Nat)) : Option (List Nat) :=
  let sy := (body.map (fun w => w.take 9)).flatten
  let bands := dealBands sy
  (List.range 9).foldl
    (fun acc b =>
      match acc with
      | none => none
      | some out =>
        match decBand t (bandParams hdr.uep b) (bands.getD b []) with
        | none => none
        | some ks => some (out ++ ks))
    (some [])

/-- The final "symbols → trits → RAW words" packing of
`decode_profile_to_raw`: 26 trits per word, last trit 0. -/
def tritsToRawGo : Nat → List Nat → List (List Nat)
  | 0, _ => []
  | fuel + 1, trits =>
    if 26 ≤ trits.length then
      let T := trits.take 26 ++ [0]
      ((List.range 9).map
        (fun s => pack3_utrits_to_gf27 (T.getD (s * 3) 0) (T.getD (s * 3 + 1) 0)
          (T.getD (s * 3 + 2) 0)))
        :: tritsToRawGo fuel (trits.drop 26)
    else []

def tritsToRaw (trits : List Nat) : List (List Nat) :=
  tritsToRawGo (trits.length + 1) trits

/-- `decode_profile_to_raw` for a `DecoderContext` whose last-seen profile
is `dprofile` (the default context uses P2). -/
def decode_profile_to_raw (t : GF27Tables) (dprofile : Nat)
    (inWords : List (List Nat)) : Option (List (List Nat)) :=
  if dprofile = profRAW then some inWords
  else
    match readHeaderFromWords t inWords with
    | none => none
    | some hdr =>
      let body := descrambleRemoveBeacons hdr (inWords.drop 6)
      match demapAndDecodeBands t hdr body with
      | none => none
      | some useful0 =>
        let useful :=
          if hdr.profile = profP5 ∧ hdr.tileW ≠ 0 ∧ hdr.tileH ≠ 0 then
            deinterleave2D hdr.tileW hdr.tileH useful0
          else useful0
        some (tritsToRaw ((useful.map unpack_gf27_to3).flatten))

/-- The all-zero RAW word. -/
def zeroWord : List Nat := List.replicate 9 0

/-! ## Pixel ↔ Word27 packing (part_013, section 5) -/

/-- `PixelYCbCrQuant`: Yq is unsigned, Cbq/Crq signed. -/
structure PixelYCbCrQuant where
  Yq : Nat := 0
  Cbq : Int := 0
  Crq : Int := 0
deriving DecidableEq, Repr

/-- `int_to_ternary_digits`: w base-3 digits of v, least significant
first (digits beyond 3^w are truncated, as in the source loop). -/
def int_to_ternary_digits (v : Nat) : Nat → List Nat
  | 0 => []
  | w + 1 => v % 3 :: int_to_ternary_digits (v / 3) w

/-- `ternary_digits_to_int`: val = Σ dᵢ·3ⁱ over the window. -/
def ternary_digits_to_int (l : List Nat) : Nat :=
  l.foldr (fun d acc => d + 3 * acc) 0

/-- `pack_two_pixels_into_word27`.  The source writes the six digit
fields at offsets 0, 5, 9, 13, 18, 22 of a zeroed 27-trit array and
forces T[26] = 0; the writes are contiguous and disjoint, so the array
is their concatenation.  The C++ `(uint32)(Cbq + 40)` casts are modelled
by `Int.toNat`, which agrees on the in-range values the claim is about. -/
def pack_two_pixels_into_word27 (p0 p1 : PixelYCbCrQuant) : List Nat :=
  let T := int_to_ternary_digits p0.Yq 5
    ++ int_to_ternary_digits (p0.Cbq + 40).toNat 4
    ++ int_to_ternary_digits (p0.Crq + 40).toNat 4
    ++ int_to_ternary_digits p1.Yq 5
    ++ int_to_ternary_digits (p1.Cbq + 40).toNat 4
    ++ int_to_ternary_digits (p1.Crq + 40).toNat 4
    ++ [0]
  (List.range 9).map (fun si => pack3_utrits_to_gf27 (T.getD (si * 3) 0)
    (T.getD (si * 3 + 1) 0) (T.getD (si * 3 + 2) 0))

/-- `unpack_word27_to_two_pixels`. -/
def unpack_word27_to_two_pixels (w : List Nat) : PixelYCbCrQuant × PixelYCbCrQuant :=
  let T := (w.map unpack_gf27_to3).flatten
  ({ Yq := ternary_digits_to_int (T.take 5)
     Cbq := (ternary_digits_to_int ((T.drop 5).take 4) : Int) - 40
     Crq := (ternary_digits_to_int ((T.drop 9).take 4) : Int) - 40 },
   { Yq := ternary_digits_to_int ((T.drop 13).take 5)
     Cbq := (ternary_digits_to_int ((T.drop 18).take 4) : Int) - 40
     Crq := (ternary_digits_to_int ((T.drop 22).take 4) : Int) - 40 })

/-- `encode_raw_pixels_to_words`: pixels consumed in pairs, a trailing
odd pixel paired with the default `PixelYCbCrQuant{}`. -/
def encode_raw_pixels_to_words : List PixelYCbCrQuant → List (List Nat)
  | [] => []
  | [p] => [pack_two_pixels_into_word27 p {}]
  | p0 :: p1 :: rest => pack_two_pixels_into_word27 p0 p1 :: encode_raw_pixels_to_words rest

/-- `decode_raw_words_to_pixels`: two pixels per word. -/
def decode_raw_words_to_pixels (ws : List (List Nat)) : List PixelYCbCrQuant :=
  (ws.map (fun w =>
    let pr := unpack_word27_to_two_pixels w
    [pr.1, pr.2])).flatten

/-! ## Base-243 packing (include/ternary_packing.hpp, namespace tpack) -/

/-- `tpack::pack5_utrits_to_byte`: v = t0 + 3·t1 + 9·t2 + 27·t3 + 81·t4;
the caller pads missing trailing trits with 0, here the `getD` default. -/
def pack5_utrits_to_byte (tbuf : List Nat) : Nat :=
  tbuf.getD 0 0 + 3 * tbuf.getD 1 0 + 9 * tbuf.getD 2 0 + 27 * tbuf.getD 3 0
    + 81 * tbuf.getD 4 0

/-- The packing loop of `tpack::ut_to_base243`: one byte per group of up
to 5 trits, the final group zero-padded. -/
def ut_to_base243_body : List Nat → List Nat
  | [] => []
  | t0 :: t1 :: t2 :: t3 :: t4 :: rest =>
    pack5_utrits_to_byte [t0, t1, t2, t3, t4] :: ut_to_base243_body rest
  | l => [pack5_utrits_to_byte l]

/-- Little-endian byte images of fixed-width integers. -/
def le16 (v : Nat) : List Nat := [v % 256, v / 256 % 256]

def le32 (v : Nat) : List Nat :=
  [v % 256, v / 256 % 256, v / 2 ^ 16 % 256, v / 2 ^ 24 % 256]

def le64 (v : Nat) : List Nat :=
  [v % 256, v / 256 % 256, v / 2 ^ 16 % 256, v / 2 ^ 24 % 256,
   v / 2 ^ 32 % 256, v / 2 ^ 40 % 256, v / 2 ^ 48 % 256, v / 2 ^ 56 % 256]

/-- `tpack::ut_to_base243`: a 4-byte little-endian trit count
(`uint32 total = in.size()`) followed by one byte per 5-trit group. -/
def ut_to_base243 (inp : List Nat) : List Nat :=
  le32 (inp.length % 2 ^ 32) ++ ut_to_base243_body inp

/-! ## Containers .t3p / .t3v (src/io_t3p_t3v.cpp)

A file is a list of byte values; `readN f pos n` models `fread` of n
bytes at position pos, failing on a short read.  `Word27` payload bytes
are the 9 symbol bytes of each word (`sizeof(Word27) = 9`). -/

def readN (f : List Nat) (pos n : Nat) : Option (List Nat) :=
  if pos + n ≤ f.length then some ((f.drop pos).take n) else none

/-- Little-endian integer value of a byte list. -/
def rdLE (bytes : List Nat) : Nat := bytes.foldr (fun b acc => b + 256 * acc) 0

/-- One table entry of the CRC32 in `crc32_acc`: 8 rounds of
c ← (c & 1) ? 0xEDB88320 ^ (c >> 1) : (c >> 1) starting from the byte. -/
def crc32_round (c : Nat) : Nat :=
  if c % 2 = 1 then Nat.xor 0xEDB88320 (c / 2) else c / 2

def crc32_table_entry (i : Nat) : Nat :=
  (List.range 8).foldl (fun c _ => crc32_round c) i

/-- `crc32_acc` (reflected IEEE CRC32): the table lookup is inlined as
`crc32_table_entry`, which is how the table is built. -/
def crc32_acc (data : List Nat) : Nat :=
  Nat.xor
    (data.foldl
      (fun c p => Nat.xor (crc32_table_entry (Nat.xor c p % 256)) (c / 256))
      0xFFFFFFFF)
    0xFFFFFFFF

/-- The `HdrCrcBuf` byte image of `t3p_read_payload`/`t3p_write`:
{uint8 ver, subu; uint16 W, H; uint32 meta_len; uint64 words_count},
16 bytes, no padding. -/
def t3pHdrCrcBytes (ver subu W H ml wc : Nat) : List Nat :=
  [ver % 256, subu % 256] ++ le16 W ++ le16 H ++ le32 ml ++ le64 wc

/-- Group the payload bytes into `Word27`s (9 bytes per word, the
in-memory image of `std::vector<Word27>`). -/
def bytesToWords9 : List Nat → List (List Nat)
  | b0 :: b1 :: b2 :: b3 :: b4 :: b5 :: b6 :: b7 :: b8 :: rest =>
    [b0, b1, b2, b3, b4, b5, b6, b7, b8] :: bytesToWords9 rest
  | _ => []

/-- The payload part of `t3p_read_payload` after the approve gate. -/
def t3pReadWords (f : List Nat) (pos wc : Nat) : Bool × List (List Nat) :=
  if wc ≠ 0 then
    match readN f pos (9 * wc) with
    | none => (false, [])
    | some wbytes =>
      let ws := bytesToWords9 wbytes
      match readN f (pos + 9 * wc) 4 with
      | none => (false, [])
      | some crcB =>
        if crc32_acc wbytes ≠ rdLE crcB then (false, ws) else (true, ws)
  else
    match readN f pos 4 with
    | none => (false, [])
    | some crcB => if rdLE crcB ≠ 0 then (false, []) else (true, [])

/-- `t3p_read_payload`.  Returns the C++ (bool, out_words) pair; every
failure before the payload read leaves the cleared vector.  On a short
payload read the C++ buffer holds indeterminate partially-written
contents; no claim depends on it and it is modelled as the empty list. -/
def t3p_read_payload (f : List Nat) (approve : Option (List Nat → Bool)) :
    Bool × List (List Nat) :=
  match readN f 0 4 with
  | none => (false, [])
  | some magic =>
    if magic ≠ [84, 51, 80, 54] then (false, [])
    else
      match readN f 4 1, readN f 5 1, readN f 6 2, readN f 8 2,
        readN f 10 4, readN f 14 8, readN f 22 4 with
      | some verB, some subB, some wB, some hB, some mlB, some wcB, some crcB =>
        let ver := rdLE verB
        let subu := rdLE subB
        let W := rdLE wB
        let H := rdLE hB
        let ml := rdLE mlB
        let wc := rdLE wcB
        if crc32_acc (t3pHdrCrcBytes ver subu W H ml wc) ≠ rdLE crcB then (false, [])
        else
          match readN f 26 ml with
          | none => (false, [])
          | some meta =>
            match approve with
            | some ap =>
              if ap meta = false then (false, [])
              else t3pReadWords f (26 + ml) wc
            | none => t3pReadWords f (26 + ml) wc
      | _, _, _, _, _, _, _ => (false, [])

/-- The `HdrBuf` byte image of `t3v_read_header`/`t3v_write`:
{uint8 ver, subu; uint16 W, H; uint64 frame_count; uint32 meta_g_len},
24 bytes with zeroed alignment padding at offsets 6–7 and 20–23 (the
aggregate is built the same way by writer and reader). -/
def t3vHdrCrcBytes (ver subu W H fc mgl : Nat) : List Nat :=
  [ver % 256, subu % 256] ++ le16 W ++ le16 H ++ [0, 0] ++ le64 fc
    ++ le32 mgl ++ [0, 0, 0, 0]

/-- The frame-index reader of `t3v_read_header`: `count` entries of
(offset u64, words u64, meta_len u32), 20 bytes each. -/
def readIndexGo (f : List Nat) : Nat → Nat → Option (List (Nat × Nat × Nat))
  | _, 0 => some []
  | pos, c + 1 =>
    match readN f pos 8, readN f (pos + 8) 8, readN f (pos + 16) 4 with
    | some oB, some wB, some mB =>
      match readIndexGo f (pos + 20) c with
      | none => none
      | some rest => some ((rdLE oB, rdLE wB, rdLE mB) :: rest)
    | _, _, _ => none

/-- `t3v_read_header`: returns (frame_count, index) on success (the
other outputs are not needed by the claims). -/
def t3v_read_header (f : List Nat) : Option (Nat × List (Nat × Nat × Nat)) :=
  match readN f 0 4 with
  | none => none
  | some magic =>
    if magic ≠ [84, 51, 86, 54] then none
    else
      match readN f 4 1, readN f 5 1, readN f 6 2, readN f 8 2,
        readN f 10 8, readN f 18 4, readN f 22 4 with
      | some verB, some subB, some wB, some hB, some fcB, some mglB, some crcB =>
        let ver := rdLE verB
        let subu := rdLE subB
        let W := rdLE wB
        let H := rdLE hB
        let fc := rdLE fcB
        let mgl := rdLE mglB
        if crc32_acc (t3vHdrCrcBytes ver subu W H fc mgl) ≠ rdLE crcB then none
        else
          match readN f 26 mgl with
          | none => none
          | some _ =>
            match readIndexGo f (26 + mgl) fc with
            | none => none
            | some idx => some (fc, idx)
      | _, _, _, _, _, _, _ => none

/-- The payload part of `t3v_read_frame` after the approve gate. -/
def t3vReadFramePayload (f : List Nat) (pos wc : Nat) : Bool × List (List Nat) :=
  if wc ≠ 0 then
    match readN f pos (9 * wc) with
    | none => (false, [])
    | some wbytes =>
      let ws := bytesToWords9 wbytes
      match readN f (pos + 9 * wc) 4 with
      | none => (false, [])
      | some crcB =>
        if crc32_acc wbytes ≠ rdLE crcB then (false, ws) else (true, ws)
  else
    match readN f pos 4 with
    | none => (false, [])
    | some crcB => if rdLE crcB ≠ 0 then (false, []) else (true, [])

/-- `t3v_read_frame`: header + index, bounds check, seek to the frame
offset, read the frame meta, approve gate, then payload and CRC. -/
def t3v_read_frame (f : List Nat) (frameIdx : Nat)
    (approve : Option (List Nat → Bool)) : Bool × List (List Nat) :=
  match t3v_read_header f with
  | none => (false, [])
  | some (fc, idx) =>
    if fc ≤ frameIdx then (false, [])
    else
      let fi := idx.getD frameIdx (0, 0, 0)
      match readN f fi.1 fi.2.2 with
      | none => (false, [])
      | some meta =>
        match approve with
        | some ap =>
          if ap meta = false then (false, [])
          else t3vReadFramePayload f (fi.1 + fi.2.2) fi.2.1
        | none => t3vReadFramePayload f (fi.1 + fi.2.2) fi.2.1

/-! ## Access-policy overlay (include/io_t3proto.hpp, namespace T3Security)

`std::string` is modelled as a list of byte values; the JSON-lite
helpers, the FNV seed, the rotor and the PREP/ACCEPT cache follow the
source.  The `on_unknown_sandbox` hook and the `user` pointers are
side-effect-only and are not modelled; callbacks are `Option`-held pure
functions. -/

/-- `starts_with`: s.size() ≥ p.size() and equality on the first p.size()
characters. -/
def startsWithB : List Nat → List Nat → Bool
  | _, [] => true
  | [], _ :: _ => false
  | x :: xs, y :: ys => x == y && startsWithB xs ys

/-- `domain_depth`: 0 for the empty domain, else 1 + number of slashes. -/
def domain_depth (d : List Nat) : Nat :=
  if d = [] then 0 else 1 + d.count 47

/-- `domain_root_of`: up to and including the first slash, else the whole
domain. -/
def domain_root_of (d : List Nat) : List Nat :=
  match (((List.range d.length).filter (fun i => d.getD i 0 = 47)).head?) with
  | none => d
  | some p => d.take (p + 1)

/-- `fnv1a64` on bytes, with 64-bit wrap-around. -/
def fnv1a64 (l : List Nat) : Nat :=
  l.foldl (fun h p => Nat.xor h p * 1099511628211 % 2 ^ 64) 14695981039346656037

/-- First occurrence of `pat` in the string (`std::string::find`). -/
def findSubGo (pat : List Nat) : List Nat → Option Nat
  | [] => if startsWithB [] pat then some 0 else none
  | x :: t =>
    if startsWithB (x :: t) pat then some 0
    else (findSubGo pat t).map (· + 1)

/-- `std::string::find(c, pos)`: first index ≥ pos holding byte c. -/
def findCharFrom (js : List Nat) (c : Nat) (pos : Nat) : Option Nat :=
  (((List.range js.length).filter (fun i => pos ≤ i ∧ js.getD i 0 = c)).head?)

/-- `meta_find_key`: position of `"key"` (quotes included). -/
def metaFindKey (js key : List Nat) : Option Nat :=
  findSubGo ([34] ++ key ++ [34]) js

/-- `meta_find_str`: after the key, skip to ':', to the opening quote,
and take the bytes up to the closing quote. -/
def metaFindStr (js key : List Nat) : Option (List Nat) :=
  match metaFindKey js key with
  | none => none
  | some pos =>
    match findCharFrom js 58 pos with
    | none => none
    | some pc =>
      match findCharFrom js 34 pc with
      | none => none
      | some p2 =>
        match findCharFrom js 34 (p2 + 1) with
        | none => none
        | some e => some (((js.drop (p2 + 1)).take (e - (p2 + 1))))

/-- First index ≥ start that is not a space or tab, else the length
(the whitespace loop of `meta_find_uint`). -/
def skipBlanksAt (js : List Nat) (start : Nat) : Nat :=
  ((((List.range js.length).filter
    (fun i => start ≤ i ∧ js.getD i 0 ≠ 32 ∧ js.getD i 0 ≠ 9)).head?)).getD js.length

/-- The digit run at a position, as `uint64` with wrap-around; `none`
when no digit is present. -/
def parseUIntAt (js : List Nat) (p : Nat) : Option Nat :=
  let ds := (js.drop p).takeWhile (fun c => 48 ≤ c && c ≤ 57)
  if ds = [] then none
  else some (ds.foldl (fun v c => (v * 10 + (c - 48)) % 2 ^ 64) 0)

/-- `meta_find_uint`. -/
def metaFindUInt (js key : List Nat) : Option Nat :=
  match metaFindKey js key with
  | none => none
  | some pos =>
    match findCharFrom js 58 pos with
    | none => none
    | some pc =>
      let p1 := skipBlanksAt js (pc + 1)
      if js.length ≤ p1 then none else parseUIntAt js p1

/-- Proximity classes as their uint8 values: Local 0, Near 1, Far 2,
Unknown 255 (`prox_from_str`). -/
def prox_from_str (sb : List Nat) : Nat :=
  if sb = [108, 111, 99, 97, 108] then 0
  else if sb = [110, 101, 97, 114] then 1
  else if sb = [102, 97, 114] then 2
  else 255

/-- `BuildTag`. -/
structure BuildTag where
  domain : List Nat := []
  build_hash : List Nat := []
  version : Nat := 0
  type_hash : Nat := 0
  pclass : Nat := 255
  radius_m : Nat := 0
  route_ttl : Nat := 0
  route_hops : Nat := 0
  route_phase : Nat := 0
  route_origin : List Nat := []
deriving DecidableEq, Repr

/-- The hex fold for `type_hash` values of the form "fnv64:...": every
character shifts by 4 bits (mod 2^64), hex digits are or-ed in. -/
def hexFold (l : List Nat) : Nat :=
  l.foldl
    (fun v c =>
      let v' := v * 16 % 2 ^ 64
      if 48 ≤ c ∧ c ≤ 57 then v' + (c - 48)
      else if 97 ≤ c ∧ c ≤ 102 then v' + (10 + (c - 97))
      else if 65 ≤ c ∧ c ≤ 70 then v' + (10 + (c - 65))
      else v')
    0

/-- `extract_build_from_meta`. -/
def extract_build_from_meta (meta : List Nat) : BuildTag :=
  let b0 : BuildTag := {}
  let b1 : BuildTag := match metaFindStr meta [100, 111, 109, 97, 105, 110] with
    | some sb => { b0 with domain := sb } | none => b0
  let b2 : BuildTag := match metaFindStr meta [98, 117, 105, 108, 100, 95, 104, 97, 115, 104] with
    | some sb => { b1 with build_hash := sb } | none => b1
  let b3 : BuildTag := match metaFindStr meta [116, 121, 112, 101, 95, 104, 97, 115, 104] with
    | some sb =>
      if startsWithB sb [102, 110, 118, 54, 52, 58] then
        { b2 with type_hash := hexFold (sb.drop 6) }
      else { b2 with type_hash := fnv1a64 sb }
    | none => b2
  let b4 : BuildTag := match metaFindUInt meta [118, 101, 114, 115, 105, 111, 110] with
    | some v => { b3 with version := v } | none => b3
  let b5 : BuildTag := match metaFindStr meta [99, 108, 97, 115, 115] with
    | some sb => { b4 with pclass := prox_from_str sb } | none => b4
  let b6 : BuildTag := match metaFindUInt meta [114, 97, 100, 105, 117, 115, 95, 109] with
    | some v => { b5 with radius_m := v % 2 ^ 32 } | none => b5
  let b7 : BuildTag := match metaFindUInt meta [114, 111, 117, 116, 101, 95, 116, 116, 108] with
    | some v => { b6 with route_ttl := min v 255 } | none => b6
  let b8 : BuildTag := match metaFindUInt meta [114, 111, 117, 116, 101, 95, 104, 111, 112, 115] with
    | some v => { b7 with route_hops := min v 255 } | none => b7
  let b9 : BuildTag := match metaFindUInt meta [114, 111, 117, 116, 101, 95, 112, 104, 97, 115, 101] with
    | some v => { b8 with route_phase := min v 2 } | none => b8
  let b10 : BuildTag := match metaFindStr meta [111, 114, 105, 103, 105, 110] with
    | some sb => { b9 with route_origin := sb } | none => b9
  let b11 : BuildTag := match metaFindKey meta [114, 111, 117, 116, 101] with
    | some pos =>
      let sub := meta.drop pos
      let c1 : BuildTag := match metaFindUInt sub [116, 116, 108] with
        | some v => { b10 with route_ttl := min v 255 } | none => b10
      let c2 : BuildTag := match metaFindUInt sub [104, 111, 112, 115] with
        | some v => { c1 with route_hops := min v 255 } | none => c1
      let c3 : BuildTag := match metaFindUInt sub [112, 104, 97, 115, 101] with
        | some v => { c2 with route_phase := min v 2 } | none => c2
      match metaFindStr sub [111, 114, 105, 103, 105, 110] with
        | some sb => { c3 with route_origin := sb } | none => c3
    | none => b10
  if b11.type_hash = 0 then
    { b11 with type_hash :=
        Nat.xor (fnv1a64 b11.domain) (b11.version * 11400714819323198087 % 2 ^ 64) }
  else b11

/-- `Policy::Membership`. -/
structure Membership where
  domainPre : List Nat := []
  hashPre : List Nat := []
  local_radius_m : Nat := 0
deriving DecidableEq, Repr

/-- `Policy::Allow`. -/
structure AllowRule where
  domainPre : List Nat := []
  hashPre : List Nat := []
deriving DecidableEq, Repr

/-- `Policy::Coexist` (max_class defaults to Near = 1). -/
structure CoexistRule where
  domainPre : List Nat := []
  hashPre : List Nat := []
  radius_max_m : Nat := 0
  max_class : Nat := 1
deriving DecidableEq, Repr

/-- `Policy::Redirect`. -/
structure RedirectRule where
  fromPre : List Nat := []
  toPre : List Nat := []
  ttl_min : Nat := 1
  ttl_max : Nat := 3
deriving DecidableEq, Repr

/-- `Policy::Prep` (validity window, 1 tick). -/
structure PrepEntry where
  requester : List Nat := []
  target : List Nat := []
  window : Nat := 1
deriving DecidableEq, Repr

/-- `T3Security::Policy`, with the rotor tick and prep cache inline and
the callbacks as optional pure functions. -/
structure Policy where
  memberships : List Membership := []
  selfm : Membership := {}
  internal_allow : List AllowRule := []
  coexist_allow : List CoexistRule := []
  allowed_roots : List (List Nat) := []
  max_depth : Nat := 3
  visual_whitelist : List (List Nat) := []
  redirects : List RedirectRule := []
  ttl_global_max : Nat := 3
  hops_global_max : Nat := 6
  enable_overlap_redirect : Bool := true
  rotor_tick : Nat := 0
  prepare_cb : Option (List Nat → List Nat → BuildTag → Bool × List Nat) := none
  accept_cb : Option (List Nat → List Nat → BuildTag → Bool) := none
  prepared_cache : List PrepEntry := []
  neighbor_cb : Option (BuildTag → Bool) := none

/-- `Policy::make_default`. -/
def Policy.make_default : Policy := {}

structure NextHop where
  should_redirect : Bool := false
  target_domain : List Nat := []
  ttl_after : Nat := 0
deriving DecidableEq, Repr

/-- Decision values: INTERNAL 0, COEXIST_ACCEPTED 1, UNKNOWN_SANDBOX 2,
REJECT 3. -/
structure DecisionEx where
  decision : Nat := 2
  tag : BuildTag := {}
  next : NextHop := {}
deriving DecidableEq, Repr

/-- `match_prefix_hex`. -/
def match_prefix_hex (hex pre : List Nat) : Bool :=
  if pre = [] then true
  else if hex.length < pre.length then false
  else hex.take pre.length == pre

def match_membership (m : Membership) (tag : BuildTag) : Bool :=
  startsWithB tag.domain m.domainPre && match_prefix_hex tag.build_hash m.hashPre

def match_allow (a : AllowRule) (tag : BuildTag) : Bool :=
  startsWithB tag.domain a.domainPre && match_prefix_hex tag.build_hash a.hashPre

def match_coexist (c : CoexistRule) (tag : BuildTag) : Bool :=
  if !startsWithB tag.domain c.domainPre then false
  else if !match_prefix_hex tag.build_hash c.hashPre then false
  else if c.radius_max_m < tag.radius_m then false
  else if tag.pclass ≠ 255 ∧ c.max_class < tag.pclass then false
  else true

def match_redirect (r : RedirectRule) (tag : BuildTag) (ttl : Nat) : Bool :=
  if !startsWithB tag.domain r.fromPre then false
  else if ttl < r.ttl_min ∨ r.ttl_max < ttl then false
  else true

/-- `tri_wave`. -/
def tri_wave (tick : Nat) : Int :=
  match tick % 3 with
  | 0 => -1
  | 1 => 0
  | _ => 1

/-- `bal_from_prox`. -/
def bal_from_prox (pc : Nat) : Int :=
  if pc = 0 then -1 else if pc = 1 then 0 else if pc = 2 then 1 else 0

/-- `unb_from_bal_sum`: clamp a + b to [-1, 1], then shift to [0, 2]. -/
def unb_from_bal_sum (a b : Int) : Nat :=
  let sv := a + b
  (if sv < -1 then (-1 : Int) else if 1 < sv then 1 else sv).toNat + 1

/-- The previous def shifts after `toNat`; the C++ computes (s+1) before
the unsigned cast, which agrees on the clamped range [-1, 1] only for
s ∈ {0, 1}; for s = -1 the C++ yields 0.  Use the exact form instead. -/
def seed_from (tag : BuildTag) : Nat :=
  (Nat.xor (Nat.xor (fnv1a64 tag.domain)
    (tag.version * 11400714819323198087 % 2 ^ 64)) tag.radius_m) % 2 ^ 32

/-- `Cand` of the overlap machinery. -/
structure Cand where
  domainPre : List Nat := []
  memberF : Bool := false
  radius_max : Nat := 0
  depth : Nat := 0
deriving DecidableEq, Repr

/-- `collect_known_domains`: memberships, then the compat `self` when
non-empty, then the coexist rules. -/
def collect_known_domains (pol : Policy) : List Cand :=
  pol.memberships.map (fun m =>
    ⟨m.domainPre, true, m.local_radius_m, domain_depth m.domainPre⟩)
  ++ (if pol.selfm.domainPre ≠ [] then
      [⟨pol.selfm.domainPre, true, pol.selfm.local_radius_m,
        domain_depth pol.selfm.domainPre⟩]
    else [])
  ++ pol.coexist_allow.map (fun c =>
    ⟨c.domainPre, false, c.radius_max_m, domain_depth c.domainPre⟩)

def share_root (a b : List Nat) : Bool := domain_root_of a == domain_root_of b

/-- `overlap_bottom_candidates`: the known domains under the requester's
root, restricted to the deepest depth, kept when they are memberships or
their radius bound admits the requester. -/
def overlap_bottom_candidates (pol : Policy) (tag : BuildTag) : List Cand :=
  let overlap := (collect_known_domains pol).filter
    (fun c => share_root c.domainPre tag.domain)
  if overlap = [] then []
  else
    let maxd := overlap.foldl (fun m c => max m c.depth) 0
    overlap.filter (fun c =>
      c.depth == maxd && (c.memberF || tag.radius_m ≤ c.radius_max))

/-- `find_prep`: the first cache entry of the requester. -/
def find_prep (cache : List PrepEntry) (req : List Nat) : Option PrepEntry :=
  cache.find? (fun p => p.requester == req)

/-- In-place update of the first cache entry of the requester (the
pointer mutation of the source). -/
def updatePrep : List PrepEntry → List Nat → (PrepEntry → PrepEntry) → List PrepEntry
  | [], _, _ => []
  | p :: rest, req, f =>
    if p.requester == req then f p :: rest else p :: updatePrep rest req f

/-- `tick_and_drop_preps`: decrement every positive window, then erase
entries whose window is 0 and whose target is empty. -/
def tick_and_drop_preps (pol : Policy) : Policy :=
  { pol with prepared_cache :=
      ((pol.prepared_cache.map
        (fun p => if 0 < p.window then { p with window := p.window - 1 } else p)).filter
        (fun p => !(p.window == 0 && p.target == []))) }

/-- `decide_ex`.  The const_cast mutation of the C++ is the returned
policy; the decision follows the source order: root/depth guards,
INTERNAL (memberships + self), INTERNAL via allow, COEXIST (first
matching rule, vetoed by a non-empty visual whitelist without a match —
the `break` leaves the loop), neighbour query, the TTL/hops-capped
redirect step with the two-round overlap branch, then sandbox. -/
def decide_ex (pol0 : Policy) (meta : List Nat) : Policy × DecisionEx :=
  let pol := tick_and_drop_preps pol0
  let tag := extract_build_from_meta meta
  let R : DecisionEx := { tag := tag }
  if pol.allowed_roots ≠ [] ∧
      ¬(pol.allowed_roots.any (fun root => startsWithB tag.domain root)) then
    (pol, R)
  else if 0 < pol.max_depth ∧ pol.max_depth < domain_depth tag.domain then
    (pol, R)
  else if pol.memberships.any (fun m => match_membership m tag)
      || (pol.selfm.domainPre != [] && startsWithB tag.domain pol.selfm.domainPre
          && match_prefix_hex tag.build_hash pol.selfm.hashPre) then
    (pol, { R with decision := 0 })
  else if pol.internal_allow.any (fun a => match_allow a tag) then
    (pol, { R with decision := 0 })
  else if (match pol.coexist_allow.find? (fun c => match_coexist c tag) with
      | none => false
      | some _ =>
        pol.visual_whitelist == []
          || pol.visual_whitelist.any (fun v => startsWithB tag.domain v)) then
    (pol, { R with decision := 1 })
  else if (match pol.neighbor_cb with
      | some q => q tag
      | none => false) then
    (pol, { R with decision := 1 })
  else
    let ttl_cap := min tag.route_ttl pol.ttl_global_max
    if 0 < ttl_cap ∧ tag.route_hops < pol.hops_global_max then
      let cands :=
        if pol.enable_overlap_redirect then overlap_bottom_candidates pol tag else []
      if cands ≠ [] then
        if tag.route_phase < 1 then
          let seed := seed_from tag
          let w := tri_wave pol.rotor_tick
          let rr := bal_from_prox tag.pclass
          let idx := (seed + unb_from_bal_sum w rr) % cands.length
          let neighbor := (cands.getD idx {}).domainPre
          let cache1 :=
            match pol.prepare_cb with
            | none => pol.prepared_cache
            | some prep =>
              let res := prep tag.domain neighbor tag
              if res.1 && res.2 != [] then
                match find_prep pol.prepared_cache tag.domain with
                | some _ =>
                  updatePrep pol.prepared_cache tag.domain
                    (fun p => { p with target := res.2, window := 1 })
                | none =>
                  let newEntry : PrepEntry := ⟨tag.domain, res.2, 1⟩
                  pol.prepared_cache ++ [newEntry]
              else pol.prepared_cache
          ({ pol with prepared_cache := cache1, rotor_tick := pol.rotor_tick + 1 }, R)
        else
          match find_prep pol.prepared_cache tag.domain with
          | some p =>
            let ok := match pol.accept_cb with
              | some acc => acc tag.domain p.target tag
              | none => true
            let cache2 := updatePrep pol.prepared_cache tag.domain
              (fun q => { q with target := [], window := 0 })
            if ok && p.target != [] then
              let pol2 := { pol with prepared_cache := cache2, rotor_tick := pol.rotor_tick + 1 }
              let nx : NextHop :=
                { should_redirect := true, target_domain := p.target, ttl_after := ttl_cap - 1 }
              (pol2, { R with next := nx })
            else
              ({ pol with prepared_cache := cache2 }, R)
          | none => (pol, R)
      else
        match pol.redirects.find? (fun r => match_redirect r tag ttl_cap) with
        | some r =>
          (pol, { R with next :=
            { should_redirect := true, target_domain := r.toPre,
              ttl_after := ttl_cap - 1 } })
        | none =>
          match pol.memberships.find? (fun m => !startsWithB m.domainPre tag.domain) with
          | some m =>
            (pol, { R with next :=
              { should_redirect := true, target_domain := m.domainPre,
                ttl_after := ttl_cap - 1 } })
          | none =>
            match pol.coexist_allow.head? with
            | some c =>
              (pol, { R with next :=
                { should_redirect := true, target_domain := c.domainPre,
                  ttl_after := ttl_cap - 1 } })
            | none => (pol, R)
    else (pol, R)

/-- Byte values of a string literal (ASCII). -/
def strBytes (sl : String) : List Nat := sl.data.map Char.toNat

def metaC8 : List Nat := strBytes "\"domain\":\"a/b\",\"route_ttl\":1"

def polC8 : Policy :=
  { coexist_allow := [{ domainPre := strBytes "a/c" }]
    prepare_cb := some (fun _ _ _ => (true, [])) }

/-- Like `polC8` but the prepare callback also returns a non-empty
target domain. -/
def polC8w : Policy :=
  { coexist_allow := [{ domainPre := strBytes "a/c" }]
    prepare_cb := some (fun _ _ _ => (true, strBytes "a/c")) }

/-- The branch condition under which `decide_ex` executes its
`rotor_tick++`: the guards below are copied verbatim from `decide_ex`
(so this is literally its branch structure), and the tick advances
exactly when the call falls through every earlier decision into the
overlap-redirect step with non-empty candidates, and the round is
either round 1 (PREP, route_phase < 1, which always ticks) or a round-2
ACCEPT whose cached entry is accepted with a non-empty target. -/
def rotor_advances (pol0 : Policy) (meta : List Nat) : Bool :=
  let pol := tick_and_drop_preps pol0
  let tag := extract_build_from_meta meta
  if pol.allowed_roots ≠ [] ∧
      ¬(pol.allowed_roots.any (fun root => startsWithB tag.domain root)) then
    false
  else if 0 < pol.max_depth ∧ pol.max_depth < domain_depth tag.domain then
    false
  else if pol.memberships.any (fun m => match_membership m tag)
      || (pol.selfm.domainPre != [] && startsWithB tag.domain pol.selfm.domainPre
          && match_prefix_hex tag.build_hash pol.selfm.hashPre) then
    false
  else if pol.internal_allow.any (fun a => match_allow a tag) then
    false
  else if (match pol.coexist_allow.find? (fun c => match_coexist c tag) with
      | none => false
      | some _ =>
        pol.visual_whitelist == []
          || pol.visual_whitelist.any (fun v => startsWithB tag.domain v)) then
    false
  else if (match pol.neighbor_cb with
      | some q => q tag
      | none => false) then
    false
  else
    let ttl_cap := min tag.route_ttl pol.ttl_global_max
    if 0 < ttl_cap ∧ tag.route_hops < pol.hops_global_max then
      let cands :=
        if pol.enable_overlap_redirect then overlap_bottom_candidates pol tag else []
      if cands ≠ [] then
        if tag.route_phase < 1 then true
        else
          match find_prep pol.prepared_cache tag.domain with
          | some p =>
            (match pol.accept_cb with
              | some acc => acc tag.domain p.target tag
              | none => true) && p.target != []
          | none => false
      else false
    else false

/-! ## Claim theorems -/

set_option maxRecDepth 100000

/-- The buffer left by the C3 failing decode: position 4 has been
altered from 13 to 17 by the Forney correction made before the zero
denominator was met. -/
def c3mutated : List Nat :=
  [23, 13, 22, 8, 17, 10, 24, 15, 6, 22, 26, 15, 12, 22, 13, 2, 2, 4, 6, 4,
   7, 23, 0, 3, 8, 4]

/-- C1: the claim asserts that for every profile and every error pattern
of weight ≤ t, `decode_block` on the corrupted `encode_block` output
returns true with exactly the original data.  It fails already at
profile P1 = RS(26,24) with the deterministic data of
`selftest_rs_unit` and the zero error pattern: the encoder's remainder
loop eliminates from the low end against g's non-unit constant
coefficient, so its output is not a codeword of the decoder's syndrome
convention; the decoder "corrects" the clean block inside the data
region, returning true with data[17] = 18 instead of 11.  The shipped
`selftest_rs_unit` therefore returns false. -/
theorem c1_rs_decode_miscorrects_clean_codeword :
    (decode_block gfInit rsP1 (encode_block gfInit rsP1 c1data)).2
        = some ((List.range 24).map (fun i => if i = 17 then 18 else (i * 5 + 7) % 27))
      ∧ ((List.range 24).map (fun i => if i = 17 then 18 else (i * 5 + 7) % 27))
          ≠ c1data := by
  rw [gfInit_eq_gfLit]
  exact ⟨by decide, by decide⟩

/-- C2: the claim asserts that `decode_profile_to_raw` inverts
`encode_profile_from_raw` exactly for every RAW word vector under the
default non-RAW configuration.  With the single all-zero RAW word the
encoder emits 6 words (header only: the 9 useful symbols are fewer than
one RS data block per band, and every band's partial block is dropped),
and the decoder succeeds with the empty vector, not the input.  The
shipped `selftest_api_roundtrip` fails the same way. -/
theorem c2_pipeline_roundtrip_fails :
    decode_profile_to_raw gfInit profP2
        (encode_profile_from_raw gfInit defaultEncCfg [zeroWord]) = some []
      ∧ ([] : List (List Nat)) ≠ [zeroWord] := by
  rw [gfInit_eq_gfLit]
  exact ⟨by decide, by decide⟩

/-- C3: the claim asserts that a failing `decode_block` leaves the
in-out buffer unchanged.  On `c3input` (profile P3 = RS(26,20)) the
Chien search finds two positions; the Forney loop corrects position 4
in place and then meets a zero denominator at the later position, so
the call returns false with the buffer already altered at index 4. -/
theorem c3_decode_failure_mutates_buffer :
    (decode_block gfInit rsP3 c3input).2 = none
      ∧ (decode_block gfInit rsP3 c3input).1 = c3mutated
      ∧ c3mutated ≠ c3input := by
  rw [gfInit_eq_gfLit]
  exact ⟨by decide, by decide, by decide⟩

/-! ### C4: header pack / CRC check -/

theorem getD_lt_of_forall_lt {l : List Nat} (hl : ∀ x ∈ l, x < 3) (i : Nat) :
    l.getD i 0 < 3 := by
  rcases Nat.lt_or_ge i l.length with h | h
  · rw [List.getD_eq_getElem l 0 h]
    exact hl _ (List.getElem_mem h)
  · rw [List.getD_eq_default l 0 h]
    omega

theorem crcStep_bound {reg : List Nat} (hreg : ∀ x ∈ reg, x < 3) (inp : Nat) :
    ∀ x ∈ crcStep reg inp, x < 3 := by
  have hD : ∀ i, reg.getD i 0 < 3 := getD_lt_of_forall_lt hreg
  intro x hx
  simp only [crcStep, List.mem_cons, List.mem_singleton, List.not_mem_nil, or_false] at hx
  rcases hx with h | h | h | h | h | h | h | h | h | h | h | h <;>
    (subst h; first
      | exact Nat.mod_lt _ (by omega)
      | exact hD _)

theorem foldl_crcStep_bound :
    ∀ (l : List Nat) (reg : List Nat), (∀ x ∈ reg, x < 3) →
      ∀ x ∈ l.foldl crcStep reg, x < 3 := by
  intro l
  induction l with
  | nil => intro reg hreg; simpa using hreg
  | cons hd tl ih =>
    intro reg hreg
    simpa using ih (crcStep reg hd) (crcStep_bound hreg hd)

theorem crc12_bound (msg : List Nat) : ∀ x ∈ crc12 msg, x < 3 := by
  have h0 : ∀ x ∈ List.replicate 12 (0 : Nat), x < 3 := by
    intro x hx
    rcases List.eq_of_mem_replicate hx with rfl
    omega
  exact foldl_crcStep_bound _ _ (foldl_crcStep_bound _ _ h0)

theorem crc12_length (msg : List Nat) : (crc12 msg).length = 12 := by
  have hstep : ∀ (reg : List Nat) inp, (crcStep reg inp).length = 12 := by
    intro reg inp; rfl
  simp only [crc12]
  rw [show (List.replicate 12 (0 : Nat)) = [0,0,0,0,0,0,0,0,0,0,0,0] from rfl]
  simp only [List.foldl_cons, List.foldl_nil, hstep]

theorem unpack3_pack3 {a b c : Nat} (ha : a < 3) (hb : b < 3) (hc : c < 3) :
    unpack_gf27_to3 (pack3_utrits_to_gf27 a b c % 27) = [a, b, c] := by
  simp only [unpack_gf27_to3, pack3_utrits_to_gf27]
  have hlt : a + 3 * b + 9 * c < 27 := by omega
  rw [Nat.mod_eq_of_lt hlt]
  have h1 : (a + 3 * b + 9 * c) % 3 = a := by omega
  have h2 : (a + 3 * b + 9 * c) / 3 % 3 = b := by omega
  have h3 : (a + 3 * b + 9 * c) / 9 % 3 = c := by omega
  rw [h1, h2, h3]

theorem cons_shape_of_length (l : List Nat) (n : Nat) (h : l.length = n + 1) :
    ∃ x t, l = x :: t ∧ t.length = n := by
  cases l with
  | nil => simp at h
  | cons x t => exact ⟨x, t, rfl, by simpa using h⟩

theorem list12_getD_eq (l : List Nat) (h : l.length = 12) :
    [l.getD 0 0, l.getD 1 0, l.getD 2 0, l.getD 3 0, l.getD 4 0, l.getD 5 0,
     l.getD 6 0, l.getD 7 0, l.getD 8 0, l.getD 9 0, l.getD 10 0, l.getD 11 0] = l := by
  obtain ⟨a0, l, rfl, g0⟩ := cons_shape_of_length l 11 h
  obtain ⟨a1, l, rfl, g1⟩ := cons_shape_of_length l 10 g0
  obtain ⟨a2, l, rfl, g2⟩ := cons_shape_of_length l 9 g1
  obtain ⟨a3, l, rfl, g3⟩ := cons_shape_of_length l 8 g2
  obtain ⟨a4, l, rfl, g4⟩ := cons_shape_of_length l 7 g3
  obtain ⟨a5, l, rfl, g5⟩ := cons_shape_of_length l 6 g4
  obtain ⟨a6, l, rfl, g6⟩ := cons_shape_of_length l 5 g5
  obtain ⟨a7, l, rfl, g7⟩ := cons_shape_of_length l 4 g6
  obtain ⟨a8, l, rfl, g8⟩ := cons_shape_of_length l 3 g7
  obtain ⟨a9, l, rfl, g9⟩ := cons_shape_of_length l 2 g8
  obtain ⟨a10, l, rfl, g10⟩ := cons_shape_of_length l 1 g9
  obtain ⟨a11, l, rfl, g11⟩ := cons_shape_of_length l 0 g10
  have hnil : l = [] := List.length_eq_zero.mp g11
  subst hnil
  rfl

theorem getD_set_ne' (l : List Nat) (i j x : Nat) (hij : i ≠ j) :
    (l.set i x).getD j 0 = l.getD j 0 := by
  rw [List.getD_eq_getElem?_getD, List.getD_eq_getElem?_getD, List.getElem?_set_ne hij]

theorem getD_set_self' (l : List Nat) (j x : Nat) (hj : j < l.length) :
    (l.set j x).getD j 0 = x := by
  rw [List.getD_eq_getElem?_getD, List.getElem?_set_eq_of_lt x hj]
  rfl

/-- The four CRC writes of `HeaderCodec::pack` do not touch a non-CRC
index. -/
theorem getD_chain_ne (p : List Nat) (x0 x1 x2 x3 j : Nat)
    (h20 : j ≠ 20) (h21 : j ≠ 21) (h22 : j ≠ 22) (h26 : j ≠ 26) :
    ((((p.set 20 x0).set 21 x1).set 22 x2).set 26 x3).getD j 0 = p.getD j 0 := by
  rw [getD_set_ne' _ _ _ _ (fun hq => h26 hq.symm),
    getD_set_ne' _ _ _ _ (fun hq => h22 hq.symm),
    getD_set_ne' _ _ _ _ (fun hq => h21 hq.symm),
    getD_set_ne' _ _ _ _ (fun hq => h20 hq.symm)]

theorem getD_chain_20 (p : List Nat) (x0 x1 x2 x3 : Nat) (hl : 20 < p.length) :
    ((((p.set 20 x0).set 21 x1).set 22 x2).set 26 x3).getD 20 0 = x0 := by
  rw [getD_set_ne' _ _ _ _ (by omega), getD_set_ne' _ _ _ _ (by omega),
    getD_set_ne' _ _ _ _ (by omega), getD_set_self' _ _ _ hl]

theorem getD_chain_21 (p : List Nat) (x0 x1 x2 x3 : Nat) (hl : 21 < p.length) :
    ((((p.set 20 x0).set 21 x1).set 22 x2).set 26 x3).getD 21 0 = x1 := by
  rw [getD_set_ne' _ _ _ _ (by omega), getD_set_ne' _ _ _ _ (by omega),
    getD_set_self' _ _ _ (by simpa using hl)]

theorem getD_chain_22 (p : List Nat) (x0 x1 x2 x3 : Nat) (hl : 22 < p.length) :
    ((((p.set 20 x0).set 21 x1).set 22 x2).set 26 x3).getD 22 0 = x2 := by
  rw [getD_set_ne' _ _ _ _ (by omega), getD_set_self' _ _ _ (by simpa using hl)]

theorem getD_chain_26 (p : List Nat) (x0 x1 x2 x3 : Nat) (hl : 26 < p.length) :
    ((((p.set 20 x0).set 21 x1).set 22 x2).set 26 x3).getD 26 0 = x3 := by
  rw [getD_set_self' _ _ _ (by simpa using hl)]

/-- Writing the CRC symbols leaves the non-CRC trit stream unchanged. -/
theorem nonCrcTrits_setChain (p : List Nat) (x0 x1 x2 x3 : Nat) :
    nonCrcTrits ((((p.set 20 x0).set 21 x1).set 22 x2).set 26 x3) = nonCrcTrits p := by
  unfold nonCrcTrits
  rw [show ((List.range 27).filter (fun i => !(isCrcSlot i)))
      = [0,1,2,3,4,5,6,7,8,9,10,11,12,13,14,15,16,17,18,19,23,24,25] from rfl]
  simp only [List.map_cons, List.map_nil]
  rw [getD_chain_ne _ _ _ _ _ 0 (by decide) (by decide) (by decide) (by decide)]
  rw [getD_chain_ne _ _ _ _ _ 1 (by decide) (by decide) (by decide) (by decide)]
  rw [getD_chain_ne _ _ _ _ _ 2 (by decide) (by decide) (by decide) (by decide)]
  rw [getD_chain_ne _ _ _ _ _ 3 (by decide) (by decide) (by decide) (by decide)]
  rw [getD_chain_ne _ _ _ _ _ 4 (by decide) (by decide) (by decide) (by decide)]
  rw [getD_chain_ne _ _ _ _ _ 5 (by decide) (by decide) (by decide) (by decide)]
  rw [getD_chain_ne _ _ _ _ _ 6 (by decide) (by decide) (by decide) (by decide)]
  rw [getD_chain_ne _ _ _ _ _ 7 (by decide) (by decide) (by decide) (by decide)]
  rw [getD_chain_ne _ _ _ _ _ 8 (by decide) (by decide) (by decide) (by decide)]
  rw [getD_chain_ne _ _ _ _ _ 9 (by decide) (by decide) (by decide) (by decide)]
  rw [getD_chain_ne _ _ _ _ _ 10 (by decide) (by decide) (by decide) (by decide)]
  rw [getD_chain_ne _ _ _ _ _ 11 (by decide) (by decide) (by decide) (by decide)]
  rw [getD_chain_ne _ _ _ _ _ 12 (by decide) (by decide) (by decide) (by decide)]
  rw [getD_chain_ne _ _ _ _ _ 13 (by decide) (by decide) (by decide) (by decide)]
  rw [getD_chain_ne _ _ _ _ _ 14 (by decide) (by decide) (by decide) (by decide)]
  rw [getD_chain_ne _ _ _ _ _ 15 (by decide) (by decide) (by decide) (by decide)]
  rw [getD_chain_ne _ _ _ _ _ 16 (by decide) (by decide) (by decide) (by decide)]
  rw [getD_chain_ne _ _ _ _ _ 17 (by decide) (by decide) (by decide) (by decide)]
  rw [getD_chain_ne _ _ _ _ _ 18 (by decide) (by decide) (by decide) (by decide)]
  rw [getD_chain_ne _ _ _ _ _ 19 (by decide) (by decide) (by decide) (by decide)]
  rw [getD_chain_ne _ _ _ _ _ 23 (by decide) (by decide) (by decide) (by decide)]
  rw [getD_chain_ne _ _ _ _ _ 24 (by decide) (by decide) (by decide) (by decide)]
  rw [getD_chain_ne _ _ _ _ _ 25 (by decide) (by decide) (by decide) (by decide)]

/-- C4: for every superframe header, `HeaderCodec::pack` produces a
27-symbol pack that passes `HeaderCodec::check_crc`: the CRC symbols at
indices 20, 21, 22, 26 carry exactly the CRC-12 remainder of the 69
non-CRC trits, and the check recomputes the same remainder. -/
theorem c4_header_pack_passes_check (h : SuperframeHeader) :
    header_check (header_pack h) = true := by
  have hlen27 : (headerBaseSyms h).length = 27 := rfl
  have hlen := crc12_length (nonCrcTrits (headerBaseSyms h))
  have hb : ∀ i, (crc12 (nonCrcTrits (headerBaseSyms h))).getD i 0 < 3 :=
    getD_lt_of_forall_lt (crc12_bound _)
  simp only [header_check, header_pack]
  rw [nonCrcTrits_setChain, getD_chain_20 _ _ _ _ _ (by rw [hlen27]; omega),
    getD_chain_21 _ _ _ _ _ (by rw [hlen27]; omega),
    getD_chain_22 _ _ _ _ _ (by rw [hlen27]; omega),
    getD_chain_26 _ _ _ _ _ (by rw [hlen27]; omega)]
  rw [unpack3_pack3 (hb 0) (hb 1) (hb 2), unpack3_pack3 (hb 3) (hb 4) (hb 5),
    unpack3_pack3 (hb 6) (hb 7) (hb 8), unpack3_pack3 (hb 9) (hb 10) (hb 11)]
  rw [show ∀ (x0 x1 x2 x3 x4 x5 x6 x7 x8 x9 x10 x11 : Nat),
      ([x0,x1,x2] ++ [x3,x4,x5] ++ [x6,x7,x8] ++ [x9,x10,x11])
        = [x0,x1,x2,x3,x4,x5,x6,x7,x8,x9,x10,x11] from fun _ _ _ _ _ _ _ _ _ _ _ _ => rfl]
  rw [list12_getD_eq _ hlen]
  exact beq_self_eq_true _

/-! ### C6: base-243 packing -/

theorem ut_to_base243_body_length :
    ∀ v : List Nat, (ut_to_base243_body v).length = (v.length + 4) / 5
  | [] => by simp [ut_to_base243_body]
  | [a] => by simp [ut_to_base243_body]
  | [a, b] => by simp [ut_to_base243_body]
  | [a, b, c] => by simp [ut_to_base243_body]
  | [a, b, c, d] => by simp [ut_to_base243_body]
  | t0 :: t1 :: t2 :: t3 :: t4 :: rest => by
    have ih := ut_to_base243_body_length rest
    simp only [ut_to_base243_body, List.length_cons, ih]
    omega

theorem ut_to_base243_body_le :
    ∀ v : List Nat, (∀ x ∈ v, x < 3) → ∀ b ∈ ut_to_base243_body v, b ≤ 242
  | [], _ => by simp [ut_to_base243_body]
  | [a], hv => by
    have ha := hv a (by simp)
    have : pack5_utrits_to_byte [a] = a := rfl
    simp [ut_to_base243_body, this]; omega
  | [a, b], hv => by
    have ha := hv a (by simp); have hb := hv b (by simp)
    have : pack5_utrits_to_byte [a, b] = a + 3 * b := rfl
    simp [ut_to_base243_body, this]; omega
  | [a, b, c], hv => by
    have ha := hv a (by simp); have hb := hv b (by simp); have hc := hv c (by simp)
    have : pack5_utrits_to_byte [a, b, c] = a + 3 * b + 9 * c := rfl
    simp [ut_to_base243_body, this]; omega
  | [a, b, c, d], hv => by
    have ha := hv a (by simp); have hb := hv b (by simp)
    have hc := hv c (by simp); have hd := hv d (by simp)
    have : pack5_utrits_to_byte [a, b, c, d] = a + 3 * b + 9 * c + 27 * d := rfl
    simp [ut_to_base243_body, this]; omega
  | t0 :: t1 :: t2 :: t3 :: t4 :: rest, hv => by
    have h0 := hv t0 (by simp); have h1 := hv t1 (by simp)
    have h2 := hv t2 (by simp); have h3 := hv t3 (by simp)
    have h4 := hv t4 (by simp)
    have ih := ut_to_base243_body_le rest (fun x hx => hv x (by simp [hx]))
    have hpk : pack5_utrits_to_byte [t0, t1, t2, t3, t4]
        = t0 + 3 * t1 + 9 * t2 + 27 * t3 + 81 * t4 := rfl
    intro b hb
    simp only [ut_to_base243_body, List.mem_cons] at hb
    rcases hb with rfl | hb
    · rw [hpk]; omega
    · exact ih b hb

theorem ut_to_base243_body_ne_nil :
    ∀ v : List Nat, v ≠ [] → ut_to_base243_body v ≠ []
  | [], hv => absurd rfl hv
  | [a], _ => by simp [ut_to_base243_body]
  | [a, b], _ => by simp [ut_to_base243_body]
  | [a, b, c], _ => by simp [ut_to_base243_body]
  | [a, b, c, d], _ => by simp [ut_to_base243_body]
  | t0 :: t1 :: t2 :: t3 :: t4 :: rest, _ => by simp [ut_to_base243_body]

theorem ut_to_base243_body_last :
    ∀ v : List Nat, (∀ x ∈ v, x < 3) → v.length % 5 ≠ 0 →
      ∀ w, (ut_to_base243_body v).getLast? = some w → w < 3 ^ (v.length % 5)
  | [], _, h5 => by simp at h5
  | [a], hv, _ => by
    have ha := hv a (by simp)
    have : pack5_utrits_to_byte [a] = a := rfl
    simp [ut_to_base243_body, this]
    omega
  | [a, b], hv, _ => by
    have ha := hv a (by simp); have hb := hv b (by simp)
    have hpk : pack5_utrits_to_byte [a, b] = a + 3 * b := rfl
    simp [ut_to_base243_body, hpk]
    omega
  | [a, b, c], hv, _ => by
    have ha := hv a (by simp); have hb := hv b (by simp); have hc := hv c (by simp)
    have hpk : pack5_utrits_to_byte [a, b, c] = a + 3 * b + 9 * c := rfl
    simp [ut_to_base243_body, hpk]
    omega
  | [a, b, c, d], hv, _ => by
    have ha := hv a (by simp); have hb := hv b (by simp)
    have hc := hv c (by simp); have hd := hv d (by simp)
    have hpk : pack5_utrits_to_byte [a, b, c, d] = a + 3 * b + 9 * c + 27 * d := rfl
    simp [ut_to_base243_body, hpk]
    omega
  | t0 :: t1 :: t2 :: t3 :: t4 :: rest, hv, h5 => by
    have hrest5 : rest.length % 5 ≠ 0 := by
      simp only [List.length_cons] at h5
      omega
    have hrne : rest ≠ [] := by
      intro hr; rw [hr] at hrest5; simp at hrest5
    have ih := ut_to_base243_body_last rest (fun x hx => hv x (by simp [hx])) hrest5
    intro w hw
    have hbody := ut_to_base243_body_ne_nil rest hrne
    rw [show ut_to_base243_body (t0 :: t1 :: t2 :: t3 :: t4 :: rest)
        = pack5_utrits_to_byte [t0, t1, t2, t3, t4] :: ut_to_base243_body rest from rfl] at hw
    have hlen : (t0 :: t1 :: t2 :: t3 :: t4 :: rest).length % 5 = rest.length % 5 := by
      simp only [List.length_cons]
      omega
    rw [hlen]
    rcases hbr : ut_to_base243_body rest with _ | ⟨bb, bl⟩
    · exact absurd hbr hbody
    · rw [hbr, List.getLast?_cons_cons] at hw
      exact ih w (by rw [hbr]; exact hw)

/-- C6 counterexample: the claim states the packer emits exactly
⌈n/5⌉ bytes; `tpack::ut_to_base243` first writes a 4-byte little-endian
trit count, so on the single trit [1] it emits 5 bytes, not ⌈1/5⌉ = 1. -/
theorem c6_counterexample :
    (ut_to_base243 [1]).length = 5 ∧ (([1] : List Nat).length + 4) / 5 = 1 ∧
      (ut_to_base243 [1]).length ≠ (([1] : List Nat).length + 4) / 5 := by
  exact ⟨by decide, by decide, by decide⟩

/-- C6 amended: for every unbalanced trit vector of length n, the packer
emits a 4-byte little-endian value of n followed by exactly ⌈n/5⌉
payload bytes; each payload byte is in [0, 242], and when n mod 5 ≠ 0
the final payload byte is strictly below 3^(n mod 5).  Beyond n itself
(stored in the 4 count bytes) no information is added. -/
theorem c6_packed_stream_shape (v : List Nat) (hv : ∀ x ∈ v, x < 3) :
    (ut_to_base243 v).length = 4 + (v.length + 4) / 5
      ∧ (ut_to_base243 v).take 4 = le32 (v.length % 2 ^ 32)
      ∧ (∀ b ∈ (ut_to_base243 v).drop 4, b ≤ 242)
      ∧ (v.length % 5 ≠ 0 →
          ∀ w, ((ut_to_base243 v).drop 4).getLast? = some w →
            w < 3 ^ (v.length % 5)) := by
  have hdrop : (ut_to_base243 v).drop 4 = ut_to_base243_body v := rfl
  have htake : (ut_to_base243 v).take 4 = le32 (v.length % 2 ^ 32) := rfl
  have hlen : (ut_to_base243 v).length = 4 + (ut_to_base243_body v).length := by
    simp [ut_to_base243, le32]
    omega
  refine ⟨?_, htake, ?_, ?_⟩
  · rw [hlen, ut_to_base243_body_length]
  · rw [hdrop]; exact ut_to_base243_body_le v hv
  · rw [hdrop]; exact fun h5 => ut_to_base243_body_last v hv h5

/-- C6 witness: the amended statement evaluated on the 6-trit vector
[1, 2, 0, 1, 2, 1]. -/
theorem c6_packed_stream_shape_witness :
    (∀ x ∈ [1, 2, 0, 1, 2, 1], x < 3)
      ∧ ((ut_to_base243 [1, 2, 0, 1, 2, 1]).length
            = 4 + (([1, 2, 0, 1, 2, 1] : List Nat).length + 4) / 5
        ∧ (ut_to_base243 [1, 2, 0, 1, 2, 1]).take 4
            = le32 (([1, 2, 0, 1, 2, 1] : List Nat).length % 2 ^ 32)
        ∧ (∀ b ∈ (ut_to_base243 [1, 2, 0, 1, 2, 1]).drop 4, b ≤ 242)
        ∧ (([1, 2, 0, 1, 2, 1] : List Nat).length % 5 ≠ 0 →
            ∀ w, ((ut_to_base243 [1, 2, 0, 1, 2, 1]).drop 4).getLast? = some w →
              w < 3 ^ (([1, 2, 0, 1, 2, 1] : List Nat).length % 5))) :=
  ⟨by decide, c6_packed_stream_shape [1, 2, 0, 1, 2, 1] (by decide)⟩

/-! ### C10: pixel ↔ word packing -/

theorem int_to_ternary_digits_length (w : Nat) :
    ∀ v, (int_to_ternary_digits v w).length = w := by
  induction w with
  | zero => intro v; rfl
  | succ w ih => intro v; simp [int_to_ternary_digits, ih]

theorem int_to_ternary_digits_lt (w : Nat) :
    ∀ v, ∀ x ∈ int_to_ternary_digits v w, x < 3 := by
  induction w with
  | zero => intro v x hx; simp [int_to_ternary_digits] at hx
  | succ w ih =>
    intro v x hx
    simp only [int_to_ternary_digits, List.mem_cons] at hx
    rcases hx with rfl | hx
    · omega
    · exact ih _ _ hx

theorem digits_roundtrip (w : Nat) :
    ∀ v, v < 3 ^ w → ternary_digits_to_int (int_to_ternary_digits v w) = v := by
  induction w with
  | zero =>
    intro v hv
    have : v = 0 := by simpa using hv
    simp [this, int_to_ternary_digits, ternary_digits_to_int]
  | succ w ih =>
    intro v hv
    have hdiv : v / 3 < 3 ^ w := by
      have h3 : (3 : Nat) ^ (w + 1) = 3 ^ w * 3 := by ring
      rw [h3] at hv
      omega
    simp only [int_to_ternary_digits, ternary_digits_to_int, List.foldr_cons]
    have := ih (v / 3) hdiv
    simp only [ternary_digits_to_int] at this
    rw [this]
    omega

/-- `unpack_gf27_to3` inverts `pack3_utrits_to_gf27` on trits. -/
theorem unpack3_pack3' {a b c : Nat} (ha : a < 3) (hb : b < 3) (hc : c < 3) :
    unpack_gf27_to3 (pack3_utrits_to_gf27 a b c) = [a, b, c] := by
  simp only [unpack_gf27_to3, pack3_utrits_to_gf27]
  have h1 : (a + 3 * b + 9 * c) % 3 = a := by omega
  have h2 : (a + 3 * b + 9 * c) / 3 % 3 = b := by omega
  have h3 : (a + 3 * b + 9 * c) / 9 % 3 = c := by omega
  rw [h1, h2, h3]

/-- Re-expanding the 9 packed symbols of a 27-trit array recovers the
array. -/
theorem flatten_unpack_word (T : List Nat) (hl : T.length = 27)
    (hb : ∀ x ∈ T, x < 3) :
    (((List.range 9).map (fun si => pack3_utrits_to_gf27 (T.getD (si * 3) 0)
        (T.getD (si * 3 + 1) 0) (T.getD (si * 3 + 2) 0))).map unpack_gf27_to3).flatten
      = T := by
  obtain ⟨a0, T, rfl, g0⟩ := cons_shape_of_length T 26 hl
  obtain ⟨a1, T, rfl, g1⟩ := cons_shape_of_length T 25 g0
  obtain ⟨a2, T, rfl, g2⟩ := cons_shape_of_length T 24 g1
  obtain ⟨a3, T, rfl, g3⟩ := cons_shape_of_length T 23 g2
  obtain ⟨a4, T, rfl, g4⟩ := cons_shape_of_length T 22 g3
  obtain ⟨a5, T, rfl, g5⟩ := cons_shape_of_length T 21 g4
  obtain ⟨a6, T, rfl, g6⟩ := cons_shape_of_length T 20 g5
  obtain ⟨a7, T, rfl, g7⟩ := cons_shape_of_length T 19 g6
  obtain ⟨a8, T, rfl, g8⟩ := cons_shape_of_length T 18 g7
  obtain ⟨a9, T, rfl, g9⟩ := cons_shape_of_length T 17 g8
  obtain ⟨a10, T, rfl, g10⟩ := cons_shape_of_length T 16 g9
  obtain ⟨a11, T, rfl, g11⟩ := cons_shape_of_length T 15 g10
  obtain ⟨a12, T, rfl, g12⟩ := cons_shape_of_length T 14 g11
  obtain ⟨a13, T, rfl, g13⟩ := cons_shape_of_length T 13 g12
  obtain ⟨a14, T, rfl, g14⟩ := cons_shape_of_length T 12 g13
  obtain ⟨a15, T, rfl, g15⟩ := cons_shape_of_length T 11 g14
  obtain ⟨a16, T, rfl, g16⟩ := cons_shape_of_length T 10 g15
  obtain ⟨a17, T, rfl, g17⟩ := cons_shape_of_length T 9 g16
  obtain ⟨a18, T, rfl, g18⟩ := cons_shape_of_length T 8 g17
  obtain ⟨a19, T, rfl, g19⟩ := cons_shape_of_length T 7 g18
  obtain ⟨a20, T, rfl, g20⟩ := cons_shape_of_length T 6 g19
  obtain ⟨a21, T, rfl, g21⟩ := cons_shape_of_length T 5 g20
  obtain ⟨a22, T, rfl, g22⟩ := cons_shape_of_length T 4 g21
  obtain ⟨a23, T, rfl, g23⟩ := cons_shape_of_length T 3 g22
  obtain ⟨a24, T, rfl, g24⟩ := cons_shape_of_length T 2 g23
  obtain ⟨a25, T, rfl, g25⟩ := cons_shape_of_length T 1 g24
  obtain ⟨a26, T, rfl, g26⟩ := cons_shape_of_length T 0 g25
  have hnil : T = [] := List.length_eq_zero.mp g26
  subst hnil
  show (((List.range 9).map _).map unpack_gf27_to3).flatten = _
  have hb0 : a0 < 3 := hb _ (by simp)
  have hb1 : a1 < 3 := hb _ (by simp)
  have hb2 : a2 < 3 := hb _ (by simp)
  have hb3 : a3 < 3 := hb _ (by simp)
  have hb4 : a4 < 3 := hb _ (by simp)
  have hb5 : a5 < 3 := hb _ (by simp)
  have hb6 : a6 < 3 := hb _ (by simp)
  have hb7 : a7 < 3 := hb _ (by simp)
  have hb8 : a8 < 3 := hb _ (by simp)
  have hb9 : a9 < 3 := hb _ (by simp)
  have hb10 : a10 < 3 := hb _ (by simp)
  have hb11 : a11 < 3 := hb _ (by simp)
  have hb12 : a12 < 3 := hb _ (by simp)
  have hb13 : a13 < 3 := hb _ (by simp)
  have hb14 : a14 < 3 := hb _ (by simp)
  have hb15 : a15 < 3 := hb _ (by simp)
  have hb16 : a16 < 3 := hb _ (by simp)
  have hb17 : a17 < 3 := hb _ (by simp)
  have hb18 : a18 < 3 := hb _ (by simp)
  have hb19 : a19 < 3 := hb _ (by simp)
  have hb20 : a20 < 3 := hb _ (by simp)
  have hb21 : a21 < 3 := hb _ (by simp)
  have hb22 : a22 < 3 := hb _ (by simp)
  have hb23 : a23 < 3 := hb _ (by simp)
  have hb24 : a24 < 3 := hb _ (by simp)
  have hb25 : a25 < 3 := hb _ (by simp)
  have hb26 : a26 < 3 := hb _ (by simp)
  show ([unpack_gf27_to3 (pack3_utrits_to_gf27 a0 a1 a2)] ++ ([unpack_gf27_to3
      (pack3_utrits_to_gf27 a3 a4 a5)] ++ ([unpack_gf27_to3 (pack3_utrits_to_gf27 a6 a7 a8)]
    ++ ([unpack_gf27_to3 (pack3_utrits_to_gf27 a9 a10 a11)] ++ ([unpack_gf27_to3
      (pack3_utrits_to_gf27 a12 a13 a14)] ++ ([unpack_gf27_to3 (pack3_utrits_to_gf27 a15 a16 a17)]
    ++ ([unpack_gf27_to3 (pack3_utrits_to_gf27 a18 a19 a20)] ++ ([unpack_gf27_to3
      (pack3_utrits_to_gf27 a21 a22 a23)] ++ ([unpack_gf27_to3 (pack3_utrits_to_gf27 a24 a25 a26)]
    ++ []))))))))).flatten = _
  rw [unpack3_pack3' hb0 hb1 hb2, unpack3_pack3' hb3 hb4 hb5, unpack3_pack3' hb6 hb7 hb8, unpack3_pack3' hb9 hb10 hb11, unpack3_pack3' hb12 hb13 hb14, unpack3_pack3' hb15 hb16 hb17, unpack3_pack3' hb18 hb19 hb20, unpack3_pack3' hb21 hb22 hb23, unpack3_pack3' hb24 hb25 hb26]
  rfl

/-- Well-formed quantized pixels: Yq ∈ [0, 242], Cbq, Crq ∈ [−40, 40]. -/
def WFPixel (p : PixelYCbCrQuant) : Prop :=
  p.Yq ≤ 242 ∧ -40 ≤ p.Cbq ∧ p.Cbq ≤ 40 ∧ -40 ≤ p.Crq ∧ p.Crq ≤ 40

instance (p : PixelYCbCrQuant) : Decidable (WFPixel p) := by
  unfold WFPixel; infer_instance

/-- The default pixel `PixelYCbCrQuant{}` used to pad an odd pixel
count. -/
def zeroPixel : PixelYCbCrQuant := {}

/-- The two-pixel pack/unpack round trip on well-formed pixels. -/
theorem unpack_pack_pair (p0 p1 : PixelYCbCrQuant) (h0 : WFPixel p0)
    (h1 : WFPixel p1) :
    unpack_word27_to_two_pixels (pack_two_pixels_into_word27 p0 p1) = (p0, p1) := by
  obtain ⟨hY0, hCbl0, hCbr0, hCrl0, hCrr0⟩ := h0
  obtain ⟨hY1, hCbl1, hCbr1, hCrl1, hCrr1⟩ := h1
  have lY0 := int_to_ternary_digits_length 5 p0.Yq
  have lCb0 := int_to_ternary_digits_length 4 (p0.Cbq + 40).toNat
  have lCr0 := int_to_ternary_digits_length 4 (p0.Crq + 40).toNat
  have lY1 := int_to_ternary_digits_length 5 p1.Yq
  have lCb1 := int_to_ternary_digits_length 4 (p1.Cbq + 40).toNat
  have lCr1 := int_to_ternary_digits_length 4 (p1.Crq + 40).toNat
  simp only [pack_two_pixels_into_word27, unpack_word27_to_two_pixels,
    List.append_assoc]
  rw [flatten_unpack_word _
    (by simp [lY0, lCb0, lCr0, lY1, lCb1, lCr1])
    (by
      intro x hx
      simp only [List.mem_append, List.mem_singleton] at hx
      rcases hx with hx | hx | hx | hx | hx | hx | hx
      · exact int_to_ternary_digits_lt 5 _ _ hx
      · exact int_to_ternary_digits_lt 4 _ _ hx
      · exact int_to_ternary_digits_lt 4 _ _ hx
      · exact int_to_ternary_digits_lt 5 _ _ hx
      · exact int_to_ternary_digits_lt 4 _ _ hx
      · exact int_to_ternary_digits_lt 4 _ _ hx
      · omega)]
  have hd5 := @List.drop_left' Nat (int_to_ternary_digits p0.Yq 5)
    (int_to_ternary_digits (p0.Cbq + 40).toNat 4
    ++ (int_to_ternary_digits (p0.Crq + 40).toNat 4 ++ (int_to_ternary_digits p1.Yq 5
    ++ (int_to_ternary_digits (p1.Cbq + 40).toNat 4
    ++ (int_to_ternary_digits (p1.Crq + 40).toNat 4 ++ [0]))))) 5 lY0
  have hd9 : (int_to_ternary_digits p0.Yq 5
      ++ (int_to_ternary_digits (p0.Cbq + 40).toNat 4
      ++ (int_to_ternary_digits (p0.Crq + 40).toNat 4 ++ (int_to_ternary_digits p1.Yq 5
      ++ (int_to_ternary_digits (p1.Cbq + 40).toNat 4
      ++ (int_to_ternary_digits (p1.Crq + 40).toNat 4 ++ [0])))))).drop 9
      = int_to_ternary_digits (p0.Crq + 40).toNat 4 ++ (int_to_ternary_digits p1.Yq 5
      ++ (int_to_ternary_digits (p1.Cbq + 40).toNat 4
      ++ (int_to_ternary_digits (p1.Crq + 40).toNat 4 ++ [0]))) := by
    rw [show (9 : Nat) = 5 + 4 from rfl, ← List.drop_drop, hd5,
      List.drop_left' lCb0]
  have hd13 : (int_to_ternary_digits p0.Yq 5
      ++ (int_to_ternary_digits (p0.Cbq + 40).toNat 4
      ++ (int_to_ternary_digits (p0.Crq + 40).toNat 4 ++ (int_to_ternary_digits p1.Yq 5
      ++ (int_to_ternary_digits (p1.Cbq + 40).toNat 4
      ++ (int_to_ternary_digits (p1.Crq + 40).toNat 4 ++ [0])))))).drop 13
      = int_to_ternary_digits p1.Yq 5 ++ (int_to_ternary_digits (p1.Cbq + 40).toNat 4
      ++ (int_to_ternary_digits (p1.Crq + 40).toNat 4 ++ [0])) := by
    rw [show (13 : Nat) = 9 + 4 from rfl, ← List.drop_drop, hd9,
      List.drop_left' lCr0]
  have hd18 : (int_to_ternary_digits p0.Yq 5
      ++ (int_to_ternary_digits (p0.Cbq + 40).toNat 4
      ++ (int_to_ternary_digits (p0.Crq + 40).toNat 4 ++ (int_to_ternary_digits p1.Yq 5
      ++ (int_to_ternary_digits (p1.Cbq + 40).toNat 4
      ++ (int_to_ternary_digits (p1.Crq + 40).toNat 4 ++ [0])))))).drop 18
      = int_to_ternary_digits (p1.Cbq + 40).toNat 4
      ++ (int_to_ternary_digits (p1.Crq + 40).toNat 4 ++ [0]) := by
    rw [show (18 : Nat) = 13 + 5 from rfl, ← List.drop_drop, hd13,
      List.drop_left' lY1]
  have hd22 : (int_to_ternary_digits p0.Yq 5
      ++ (int_to_ternary_digits (p0.Cbq + 40).toNat 4
      ++ (int_to_ternary_digits (p0.Crq + 40).toNat 4 ++ (int_to_ternary_digits p1.Yq 5
      ++ (int_to_ternary_digits (p1.Cbq + 40).toNat 4
      ++ (int_to_ternary_digits (p1.Crq + 40).toNat 4 ++ [0])))))).drop 22
      = int_to_ternary_digits (p1.Crq + 40).toNat 4 ++ [0] := by
    rw [show (22 : Nat) = 18 + 4 from rfl, ← List.drop_drop, hd18,
      List.drop_left' lCb1]
  rw [List.take_left' lY0, hd5, hd9, hd13, hd18, hd22,
    List.take_left' lCb0, List.take_left' lCr0, List.take_left' lY1,
    List.take_left' lCb1, List.take_left' lCr1]
  have rY0 := digits_roundtrip 5 p0.Yq (by norm_num; omega)
  have rCb0 := digits_roundtrip 4 (p0.Cbq + 40).toNat (by norm_num; omega)
  have rCr0 := digits_roundtrip 4 (p0.Crq + 40).toNat (by norm_num; omega)
  have rY1 := digits_roundtrip 5 p1.Yq (by norm_num; omega)
  have rCb1 := digits_roundtrip 4 (p1.Cbq + 40).toNat (by norm_num; omega)
  have rCr1 := digits_roundtrip 4 (p1.Crq + 40).toNat (by norm_num; omega)
  rw [rY0, rCb0, rCr0, rY1, rCb1, rCr1]
  have eCb0 : ((p0.Cbq + 40).toNat : Int) - 40 = p0.Cbq := by omega
  have eCr0 : ((p0.Crq + 40).toNat : Int) - 40 = p0.Crq := by omega
  have eCb1 : ((p1.Cbq + 40).toNat : Int) - 40 = p1.Cbq := by omega
  have eCr1 : ((p1.Crq + 40).toNat : Int) - 40 = p1.Crq := by omega
  rw [eCb0, eCr0, eCb1, eCr1]

theorem decode_raw_length (ws : List (List Nat)) :
    (decode_raw_words_to_pixels ws).length = 2 * ws.length := by
  induction ws with
  | nil => rfl
  | cons w ws ih =>
    simp only [decode_raw_words_to_pixels, List.map_cons, List.flatten_cons,
      List.length_append, List.length_cons, List.length_nil] at *
    omega

theorem c10_roundtrip_aux :
    ∀ px : List PixelYCbCrQuant, (∀ p ∈ px, WFPixel p) →
      decode_raw_words_to_pixels (encode_raw_pixels_to_words px)
        = if px.length % 2 = 0 then px else px ++ [zeroPixel]
  | [], _ => by simp [encode_raw_pixels_to_words, decode_raw_words_to_pixels]
  | [p], h => by
    have hwf := h p (by simp)
    have hdefault : WFPixel zeroPixel := by
      refine ⟨by norm_num [zeroPixel], by norm_num [zeroPixel],
        by norm_num [zeroPixel], by norm_num [zeroPixel], by norm_num [zeroPixel]⟩
    have hz : pack_two_pixels_into_word27 p {} = pack_two_pixels_into_word27 p zeroPixel := rfl
    simp [encode_raw_pixels_to_words, decode_raw_words_to_pixels, hz,
      unpack_pack_pair p zeroPixel hwf hdefault]
  | p0 :: p1 :: rest, h => by
    have ih := c10_roundtrip_aux rest (fun p hp => h p (by simp [hp]))
    have hwf0 := h p0 (by simp)
    have hwf1 := h p1 (by simp)
    have hmod : (p0 :: p1 :: rest).length % 2 = rest.length % 2 := by
      simp only [List.length_cons]; omega
    simp only [encode_raw_pixels_to_words, decode_raw_words_to_pixels,
      List.map_cons, List.flatten_cons]
    rw [unpack_pack_pair p0 p1 hwf0 hwf1]
    simp only [decode_raw_words_to_pixels] at ih
    rw [ih, hmod]
    by_cases hr : rest.length % 2 = 0
    · simp [hr]
    · simp [hr]

/-- C10: `decode_raw_words_to_pixels` returns exactly two pixels per
word, and for every well-formed pixel vector the pixel→words→pixels
round trip returns the vector itself when its length is even, and the
vector followed by one default zero pixel (Yq = 0, Cbq = 0, Crq = 0)
when it is odd. -/
theorem c10_raw_pixel_word_roundtrip :
    (∀ ws : List (List Nat), (decode_raw_words_to_pixels ws).length = 2 * ws.length)
      ∧ (∀ px : List PixelYCbCrQuant, (∀ p ∈ px, WFPixel p) →
          decode_raw_words_to_pixels (encode_raw_pixels_to_words px)
            = if px.length % 2 = 0 then px else px ++ [zeroPixel]) :=
  ⟨decode_raw_length, c10_roundtrip_aux⟩

/-- C10 witness at the odd-length vector [⟨5, −3, 7⟩]. -/
theorem c10_raw_pixel_word_roundtrip_witness :
    (∀ p ∈ [(⟨5, -3, 7⟩ : PixelYCbCrQuant)], WFPixel p)
      ∧ decode_raw_words_to_pixels
          (encode_raw_pixels_to_words [(⟨5, -3, 7⟩ : PixelYCbCrQuant)])
        = (if [(⟨5, -3, 7⟩ : PixelYCbCrQuant)].length % 2 = 0 then
            [(⟨5, -3, 7⟩ : PixelYCbCrQuant)]
          else [(⟨5, -3, 7⟩ : PixelYCbCrQuant)] ++ [zeroPixel]) :=
  ⟨by decide, c10_raw_pixel_word_roundtrip.2 [(⟨5, -3, 7⟩ : PixelYCbCrQuant)] (by decide)⟩

/-! ### C7: 2D boustrophedon interleave round trip -/

theorem takeWhile_eq_filter_of_le {p : Nat → Bool}
    (hp : ∀ a b : Nat, a ≤ b → p b = true → p a = true) :
    ∀ l : List Nat, l.Pairwise (· < ·) → l.takeWhile p = l.filter p := by
  intro l
  induction l with
  | nil => intro _; rfl
  | cons a t ih =>
    intro hpw
    have hat := (List.pairwise_cons.mp hpw).1
    have ht := (List.pairwise_cons.mp hpw).2
    by_cases ha : p a = true
    · simp [List.takeWhile_cons, List.filter_cons, ha, ih ht]
    · have hnone : ∀ b ∈ t, ¬ p b = true := by
        intro b hb hpb
        exact ha (hp a b (Nat.le_of_lt (hat b hb)) hpb)
      simp [List.takeWhile_cons, List.filter_cons, ha,
        List.filter_eq_nil_iff.mpr hnone]

/-- Each scanned row, even or odd, is a permutation of the valid cells
of that row in index order. -/
theorem rowScan_perm (tw takeN r : Nat) :
    (rowScan tw takeN r).Perm
      (((List.range tw).map (fun c => r * tw + c)).filter (fun idx => idx < takeN)) := by
  have hcomp : ∀ l : List Nat,
      (l.filter (fun c => decide (r * tw + c < takeN))).map (fun c => r * tw + c)
        = (l.map (fun c => r * tw + c)).filter (fun idx => decide (idx < takeN)) := by
    intro l
    exact Eq.symm (List.map_filter (fun c => r * tw + c) l)
  unfold rowScan
  by_cases hr : r % 2 = 0
  · rw [if_pos hr]
    rw [takeWhile_eq_filter_of_le
      (by intro a b hab hb; simp at hb ⊢; omega)
      _ (List.pairwise_lt_range tw)]
    rw [hcomp]
  · rw [if_neg hr, hcomp ((List.range tw).reverse), List.map_reverse,
      List.filter_reverse]
    exact List.reverse_perm _

theorem flatten_row_ranges (tw : Nat) :
    ∀ th : Nat,
      (((List.range th).map (fun r => (List.range tw).map (fun c => r * tw + c))).flatten)
        = List.range (th * tw) := by
  intro th
  induction th with
  | zero => simp
  | succ th ih =>
    rw [List.range_succ, List.map_append, List.flatten_append, ih,
      Nat.succ_mul, List.range_add]
    simp [Nat.mul_comm]

theorem tileScan_perm_filter (tw th takeN : Nat) :
    (tileScan tw th takeN).Perm
      ((((List.range th).map
        (fun r => (List.range tw).map (fun c => r * tw + c))).flatten).filter
        (fun idx => idx < takeN)) := by
  rw [List.filter_flatten]
  unfold tileScan
  rw [List.map_map]
  induction th with
  | zero => rfl
  | succ th ihth =>
    rw [List.range_succ, List.map_append, List.map_append,
      List.flatten_append, List.flatten_append]
    exact List.Perm.append ihth (by simpa using rowScan_perm tw takeN th)

/-- The tile scan is a permutation of the valid cell indices. -/
theorem tileScan_perm (tw th takeN : Nat) (hle : takeN ≤ tw * th) :
    (tileScan tw th takeN).Perm (List.range takeN) := by
  have hle' : takeN ≤ th * tw := by rw [Nat.mul_comm]; exact hle
  have h2 : (((List.range th).map
      (fun r => (List.range tw).map (fun c => r * tw + c))).flatten).filter
      (fun idx => idx < takeN) = List.range takeN := by
    rw [flatten_row_ranges]
    have hsplit : th * tw = takeN + (th * tw - takeN) := by omega
    rw [hsplit, List.range_add, List.filter_append]
    rw [List.filter_eq_self.mpr (by intro a ha; simp at ha ⊢; omega),
      List.filter_eq_nil_iff.mpr (by intro a ha; simp at ha ⊢; omega),
      List.append_nil]
  exact (tileScan_perm_filter tw th takeN).trans (h2 ▸ List.Perm.refl _)

theorem tileScan_length (tw th takeN : Nat) (hle : takeN ≤ tw * th) :
    (tileScan tw th takeN).length = takeN := by
  simpa using (tileScan_perm tw th takeN hle).length_eq

theorem tileScan_nodup (tw th takeN : Nat) (hle : takeN ≤ tw * th) :
    (tileScan tw th takeN).Nodup :=
  ((tileScan_perm tw th takeN hle).nodup_iff).mpr (List.nodup_range takeN)

theorem tileScan_mem (tw th takeN : Nat) (hle : takeN ≤ tw * th) (j : Nat) :
    j ∈ tileScan tw th takeN ↔ j < takeN := by
  rw [(tileScan_perm tw th takeN hle).mem_iff, List.mem_range]

theorem fillScan_length (inp : List Nat) :
    ∀ (scan : List Nat) (k : Nat) (tmp : List Nat),
      (fillScan inp scan k tmp).length = tmp.length := by
  intro scan
  induction scan with
  | nil => intro k tmp; rfl
  | cons idx rest ih =>
    intro k tmp
    simp only [fillScan, ih, List.length_set]

theorem fillScan_getD (inp : List Nat) (f : Nat → Nat) :
    ∀ (scan : List Nat) (k : Nat) (tmp : List Nat),
      (∀ m, m < scan.length → inp.getD (k + m) 0 = f (scan.getD m 0)) →
      scan.Nodup → (∀ i ∈ scan, i < tmp.length) →
      ∀ j, j < tmp.length →
        (fillScan inp scan k tmp).getD j 0 = if j ∈ scan then f j else tmp.getD j 0 := by
  intro scan
  induction scan with
  | nil => intro k tmp _ _ _ j _; simp [fillScan]
  | cons idx rest ih =>
    intro k tmp hinp hnd hbnd j hj
    have hidx : idx < tmp.length := hbnd idx (by simp)
    have h0 : inp.getD k 0 = f idx := by
      have := hinp 0 (by simp)
      simpa using this
    have hinp' : ∀ m, m < rest.length → inp.getD (k + 1 + m) 0 = f (rest.getD m 0) := by
      intro m hm
      have := hinp (m + 1) (by simp; omega)
      rw [show k + 1 + m = k + (m + 1) by omega]
      simpa using this
    have hnd' : rest.Nodup := (List.nodup_cons.mp hnd).2
    have hnotmem : idx ∉ rest := (List.nodup_cons.mp hnd).1
    have hbnd' : ∀ i ∈ rest, i < (tmp.set idx (inp.getD k 0)).length := by
      intro i hi
      rw [List.length_set]
      exact hbnd i (by simp [hi])
    have hres := ih (k + 1) (tmp.set idx (inp.getD k 0)) hinp' hnd' hbnd' j
      (by rw [List.length_set]; exact hj)
    simp only [fillScan]
    rw [hres]
    by_cases hjr : j ∈ rest
    · simp [hjr]
    · by_cases hji : j = idx
      · subst hji
        simp only [hjr, if_false, List.mem_cons, true_or, if_true]
        rw [getD_set_self' _ _ _ hidx, h0]
      · have : ¬ j ∈ idx :: rest := by simp [hji, hjr]
        simp only [hjr, if_false, this, if_false]
        rw [getD_set_ne' _ _ _ _ (fun hq => hji hq.symm)]

theorem interleaveTile_length (tw th : Nat) (tmp : List Nat)
    (hle : tmp.length ≤ tw * th) :
    (interleaveTile tw th tmp).length = tmp.length := by
  simp [interleaveTile, tileScan_length tw th tmp.length hle]

/-- Per-tile round trip: the deinterleave assignment loop inverts the
boustrophedon read of a (possibly partial) tile. -/
theorem deinterleaveTile_interleaveTile (tw th : Nat) (tmp : List Nat)
    (hle : tmp.length ≤ tw * th) :
    deinterleaveTile tw th (interleaveTile tw th tmp) = tmp := by
  have hscanlen := tileScan_length tw th tmp.length hle
  have hchunklen : (interleaveTile tw th tmp).length = tmp.length :=
    interleaveTile_length tw th tmp hle
  unfold deinterleaveTile
  rw [hchunklen]
  have hnd := tileScan_nodup tw th tmp.length hle
  have hmem := tileScan_mem tw th tmp.length hle
  have hbnd : ∀ i ∈ tileScan tw th tmp.length,
      i < (List.replicate tmp.length (0 : Nat)).length := by
    intro i hi
    rw [List.length_replicate]
    exact (hmem i).mp hi
  have hinp : ∀ m, m < (tileScan tw th tmp.length).length →
      (interleaveTile tw th tmp).getD (0 + m) 0
        = (fun idx => tmp.getD idx 0) ((tileScan tw th tmp.length).getD m 0) := by
    intro m hm
    unfold interleaveTile
    rw [Nat.zero_add, List.getD_eq_getElem _ _ (by simpa using hm),
      List.getD_eq_getElem _ _ hm]
    simp
  refine List.ext_getElem ?_ ?_
  · rw [fillScan_length, List.length_replicate]
  · intro j hj1 hj2
    have hj : j < tmp.length := hj2
    have := fillScan_getD (interleaveTile tw th tmp) (fun idx => tmp.getD idx 0)
      (tileScan tw th tmp.length) 0 (List.replicate tmp.length 0)
      hinp hnd hbnd j (by rw [List.length_replicate]; exact hj)
    rw [if_pos ((hmem j).mpr hj)] at this
    rw [← List.getD_eq_getElem _ 0, ← List.getD_eq_getElem _ 0, this]

theorem interleave2DGo_length (tw th : Nat) (hA : 0 < tw * th) :
    ∀ (fuel : Nat) (syms : List Nat), syms.length ≤ fuel →
      (interleave2DGo tw th fuel syms).length = syms.length := by
  intro fuel
  induction fuel with
  | zero =>
    intro syms hs
    rfl
  | succ fuel ih =>
    intro syms hs
    by_cases hnil : syms = []
    · subst hnil; rfl
    · simp only [interleave2DGo, if_neg hnil, List.length_append]
      rw [interleaveTile_length tw th _ (by simp), ih _ (by simp; omega)]
      simp
      omega

theorem deinterleave2DGo_nil (tw th : Nat) :
    ∀ fuel, deinterleave2DGo tw th fuel [] = [] := by
  intro fuel
  cases fuel <;> rfl

/-- The fuel-indexed round trip: deinterleaving the interleaved stream
restores it, tile by tile. -/
theorem deinterleave_interleave_go (tw th : Nat) (hA : 0 < tw * th) :
    ∀ (fuel1 fuel2 : Nat) (syms : List Nat),
      syms.length ≤ fuel1 → syms.length ≤ fuel2 →
      deinterleave2DGo tw th fuel2 (interleave2DGo tw th fuel1 syms) = syms := by
  intro fuel1
  induction fuel1 with
  | zero =>
    intro fuel2 syms hs1 _
    have hnil : syms = [] := List.length_eq_zero.mp (by omega)
    subst hnil
    exact deinterleave2DGo_nil tw th fuel2
  | succ fuel1 ih =>
    intro fuel2 syms hs1 hs2
    by_cases hnil : syms = []
    · subst hnil
      exact deinterleave2DGo_nil tw th fuel2
    · have hpos : 0 < syms.length := List.length_pos.mpr hnil
      rcases fuel2 with _ | fuel2
      · omega
      · simp only [interleave2DGo, if_neg hnil]
        have htile : (interleaveTile tw th (syms.take (tw * th))).length
            = (syms.take (tw * th)).length :=
          interleaveTile_length tw th _ (by simp)
        have hrest : (interleave2DGo tw th fuel1 (syms.drop (tw * th))).length
            = (syms.drop (tw * th)).length :=
          interleave2DGo_length tw th hA fuel1 _ (by simp; omega)
        have houtnil : interleaveTile tw th (syms.take (tw * th))
            ++ interleave2DGo tw th fuel1 (syms.drop (tw * th)) ≠ [] := by
          intro hq
          have hlen := congrArg List.length hq
          rw [List.length_append, htile, hrest, List.length_take,
            List.length_drop] at hlen
          simp only [List.length_nil] at hlen
          omega
        simp only [deinterleave2DGo, if_neg houtnil]
        rcases Nat.lt_or_ge syms.length (tw * th) with hlt | hge
        · have hdropnil : syms.drop (tw * th) = [] :=
            List.drop_eq_nil_of_le (by omega)
          have htk : syms.take (tw * th) = syms := List.take_all_of_le (by omega)
          rw [hdropnil] at *
          have hgonil : interleave2DGo tw th fuel1 [] = [] := by
            cases fuel1 <;> rfl
          rw [hgonil, List.append_nil]
          have htl : (interleaveTile tw th (syms.take (tw * th))).length = syms.length := by
            rw [htile, htk]
          rw [List.take_all_of_le (by rw [htl]; omega),
            List.drop_eq_nil_of_le (by rw [htl]; omega)]
          rw [deinterleaveTile_interleaveTile tw th _ (by simp), htk,
            deinterleave2DGo_nil, List.append_nil]
        · have htkA : (syms.take (tw * th)).length = tw * th := by simp; omega
          have htileA : (interleaveTile tw th (syms.take (tw * th))).length = tw * th := by
            rw [htile, htkA]
          rw [List.take_left' htileA, List.drop_left' htileA]
          rw [deinterleaveTile_interleaveTile tw th _ (by simp),
            ih fuel2 _ (by simp; omega) (by simp; omega)]
          exact List.take_append_drop _ syms

/-- C7: for every symbol vector and every tile geometry with positive
width and height, `deinterleave2D_boustrophedon` inverts
`interleave2D_boustrophedon`, including on a partial final tile. -/
theorem c7_interleave2D_roundtrip (tw th : Nat) (htw : 0 < tw) (hth : 0 < th)
    (syms : List Nat) :
    deinterleave2D tw th (interleave2D tw th syms) = syms := by
  have hA : 0 < tw * th := Nat.mul_pos htw hth
  have hguard : ¬(tw = 0 ∨ th = 0) := by omega
  unfold interleave2D deinterleave2D
  rw [if_neg hguard, if_neg hguard,
    interleave2DGo_length tw th hA syms.length syms le_rfl]
  exact deinterleave_interleave_go tw th hA syms.length syms.length syms le_rfl le_rfl

/-- C7 witness: a 2×2 tile over five symbols (one full tile and a
partial final tile). -/
theorem c7_interleave2D_roundtrip_witness :
    0 < 2 ∧ 0 < 2 ∧
      deinterleave2D 2 2 (interleave2D 2 2 [9, 8, 7, 6, 5]) = [9, 8, 7, 6, 5] :=
  ⟨by decide, by decide, c7_interleave2D_roundtrip 2 2 (by decide) (by decide) _⟩

lemma readN_of_le (f : List Nat) (pos n : Nat) (h : pos + n ≤ f.length) :
    readN f pos n = some ((f.drop pos).take n) := by
  unfold readN; rw [if_pos h]

lemma rdLE_singleton (v : Nat) : rdLE [v] = v := by simp [rdLE]

lemma rdLE_le16 (v : Nat) (h : v < 2 ^ 16) : rdLE (le16 v) = v := by
  simp [rdLE, le16]; omega

lemma rdLE_le32 (v : Nat) (h : v < 2 ^ 32) : rdLE (le32 v) = v := by
  simp [rdLE, le32]; omega

lemma rdLE_le64 (v : Nat) (h : v < 2 ^ 64) : rdLE (le64 v) = v := by
  simp [rdLE, le64]; omega

lemma crc32_round_lt (c : Nat) (h : c < 2 ^ 32) : crc32_round c < 2 ^ 32 := by
  unfold crc32_round
  split
  · exact Nat.xor_lt_two_pow (by norm_num) (by omega)
  · omega

lemma crc32_table_entry_lt (i : Nat) (h : i < 2 ^ 32) :
    crc32_table_entry i < 2 ^ 32 := by
  have h8 : List.range 8 = [0, 1, 2, 3, 4, 5, 6, 7] := rfl
  unfold crc32_table_entry
  rw [h8]
  simp only [List.foldl]
  exact crc32_round_lt _ (crc32_round_lt _ (crc32_round_lt _ (crc32_round_lt _
    (crc32_round_lt _ (crc32_round_lt _ (crc32_round_lt _ (crc32_round_lt _ h)))))))

lemma crc32_foldl_lt (l : List Nat) :
    ∀ c : Nat, c < 2 ^ 32 →
      l.foldl (fun c p => Nat.xor (crc32_table_entry (Nat.xor c p % 256)) (c / 256))
        c < 2 ^ 32 := by
  induction l with
  | nil => intro c hc; simpa using hc
  | cons x xs ih =>
    intro c hc
    simp only [List.foldl]
    exact ih _ (Nat.xor_lt_two_pow
      (crc32_table_entry_lt _
        (lt_of_lt_of_le (Nat.mod_lt _ (by norm_num)) (by norm_num)))
      (by omega))

lemma crc32_acc_lt (data : List Nat) : crc32_acc data < 2 ^ 32 := by
  unfold crc32_acc
  exact Nat.xor_lt_two_pow (crc32_foldl_lt data _ (by norm_num)) (by norm_num)

/-- The header walk of `t3p_read_payload` on a well-formed byte stream:
magic, fields, header CRC, meta, then the approve gate decides. -/
lemma t3p_read_payload_layout (ver subu W H wc : Nat) (meta suffix f : List Nat)
    (hf : f = [84, 51, 80, 54] ++ [ver, subu] ++ le16 W ++ le16 H
      ++ le32 meta.length ++ le64 wc
      ++ le32 (crc32_acc (t3pHdrCrcBytes ver subu W H meta.length wc))
      ++ meta ++ suffix)
    (ap : List Nat → Bool) (hW : W < 2 ^ 16) (hH : H < 2 ^ 16)
    (hml : meta.length < 2 ^ 32) (hwc : wc < 2 ^ 64) :
    t3p_read_payload f (some ap)
      = if ap meta = false then (false, [])
        else t3pReadWords f (26 + meta.length) wc := by
  have hflen : f.length = 26 + meta.length + suffix.length := by
    subst hf; simp [le16, le32, le64]; omega
  have h0 : readN f 0 4 = some [84, 51, 80, 54] := by
    rw [readN_of_le f 0 4 (by omega)]; subst hf; rfl
  have h4 : readN f 4 1 = some [ver] := by
    rw [readN_of_le f 4 1 (by omega)]; subst hf; rfl
  have h5 : readN f 5 1 = some [subu] := by
    rw [readN_of_le f 5 1 (by omega)]; subst hf; rfl
  have h6 : readN f 6 2 = some (le16 W) := by
    rw [readN_of_le f 6 2 (by omega)]; subst hf; rfl
  have h8 : readN f 8 2 = some (le16 H) := by
    rw [readN_of_le f 8 2 (by omega)]; subst hf; rfl
  have h10 : readN f 10 4 = some (le32 meta.length) := by
    rw [readN_of_le f 10 4 (by omega)]; subst hf; rfl
  have h14 : readN f 14 8 = some (le64 wc) := by
    rw [readN_of_le f 14 8 (by omega)]; subst hf; rfl
  have h22 : readN f 22 4
      = some (le32 (crc32_acc (t3pHdrCrcBytes ver subu W H meta.length wc))) := by
    rw [readN_of_le f 22 4 (by omega)]; subst hf; rfl
  have h26 : readN f 26 meta.length = some meta := by
    rw [readN_of_le f 26 meta.length (by omega)]
    subst hf
    show some ((meta ++ suffix).take meta.length) = some meta
    rw [List.take_left]
  simp only [t3p_read_payload, h0, h4, h5, h6, h8, h10, h14, h22, h26,
    rdLE_singleton, rdLE_le16 W hW, rdLE_le16 H hH, rdLE_le32 meta.length hml,
    rdLE_le64 wc hwc,
    rdLE_le32 (crc32_acc (t3pHdrCrcBytes ver subu W H meta.length wc))
      (crc32_acc_lt _)]
  rw [if_neg (show ¬([84, 51, 80, 54] ≠ [84, 51, 80, 54]) from fun hne => hne rfl),
    if_neg (show ¬(crc32_acc (t3pHdrCrcBytes ver subu W H meta.length wc)
      ≠ crc32_acc (t3pHdrCrcBytes ver subu W H meta.length wc)) from
      fun hne => hne rfl)]

/-- C5: the approve gate.  (a) On a well-formed `.t3p` stream whose header
CRC matches, a supplied approve callback that rejects the meta bytes makes
`t3p_read_payload` return `false` with an empty word vector, whatever the
payload bytes after the meta are; (b) if the callback accepts, the result
is exactly the payload reader `t3pReadWords` (which reads the words and
validates the payload CRC32); (c) for `.t3v`, on any file whose header and
frame index parse and whose selected frame's meta reads back, a rejecting
callback makes `t3v_read_frame` return `false` with an empty word vector. -/
theorem c5_approve_gate_blocks_payload :
    (∀ ver subu W H wc : Nat, ∀ meta suffix : List Nat, ∀ ap : List Nat → Bool,
      ver < 256 → subu < 256 → W < 2 ^ 16 → H < 2 ^ 16 → meta.length < 2 ^ 32 →
      wc < 2 ^ 64 → ap meta = false →
      t3p_read_payload
        ([84, 51, 80, 54] ++ [ver, subu] ++ le16 W ++ le16 H ++ le32 meta.length
          ++ le64 wc ++ le32 (crc32_acc (t3pHdrCrcBytes ver subu W H meta.length wc))
          ++ meta ++ suffix) (some ap) = (false, [])) ∧
    (∀ ver subu W H wc : Nat, ∀ meta suffix : List Nat, ∀ ap : List Nat → Bool,
      ver < 256 → subu < 256 → W < 2 ^ 16 → H < 2 ^ 16 → meta.length < 2 ^ 32 →
      wc < 2 ^ 64 → ap meta = true →
      t3p_read_payload
        ([84, 51, 80, 54] ++ [ver, subu] ++ le16 W ++ le16 H ++ le32 meta.length
          ++ le64 wc ++ le32 (crc32_acc (t3pHdrCrcBytes ver subu W H meta.length wc))
          ++ meta ++ suffix) (some ap)
        = t3pReadWords
          ([84, 51, 80, 54] ++ [ver, subu] ++ le16 W ++ le16 H ++ le32 meta.length
            ++ le64 wc ++ le32 (crc32_acc (t3pHdrCrcBytes ver subu W H meta.length wc))
            ++ meta ++ suffix) (26 + meta.length) wc) ∧
    (∀ f : List Nat, ∀ frameIdx fc offv wv mlv : Nat,
      ∀ idx : List (Nat × Nat × Nat), ∀ meta : List Nat, ∀ ap : List Nat → Bool,
      t3v_read_header f = some (fc, idx) → frameIdx < fc →
      idx.getD frameIdx (0, 0, 0) = (offv, wv, mlv) →
      readN f offv mlv = some meta → ap meta = false →
      t3v_read_frame f frameIdx (some ap) = (false, [])) := by
  refine ⟨?_, ?_, ?_⟩
  · intro ver subu W H wc meta suffix ap _ _ hW hH hml hwc hap
    rw [t3p_read_payload_layout ver subu W H wc meta suffix _ rfl ap hW hH hml hwc,
      hap]
    simp
  · intro ver subu W H wc meta suffix ap _ _ hW hH hml hwc hap
    rw [t3p_read_payload_layout ver subu W H wc meta suffix _ rfl ap hW hH hml hwc,
      hap]
    simp
  · intro f frameIdx fc offv wv mlv idx meta ap hhdr hlt hfi hread hap
    simp only [t3v_read_frame, hhdr, hfi, hread, hap]
    rw [if_neg (Nat.not_le.mpr hlt)]
    simp

/-- C5 witness: a 27-byte `.t3p` stream with one meta byte and zero words,
rejected then accepted, and a 47-byte one-frame `.t3v` file whose single
frame's meta is rejected. -/
theorem c5_approve_gate_blocks_payload_witness :
    t3p_read_payload
      ([84, 51, 80, 54] ++ [6, 0] ++ le16 1 ++ le16 1 ++ le32 1 ++ le64 0
        ++ le32 (crc32_acc (t3pHdrCrcBytes 6 0 1 1 1 0)) ++ [97] ++ [0, 0, 0, 0])
      (some (fun _ => false)) = (false, []) ∧
    t3p_read_payload
      ([84, 51, 80, 54] ++ [6, 0] ++ le16 1 ++ le16 1 ++ le32 1 ++ le64 0
        ++ le32 (crc32_acc (t3pHdrCrcBytes 6 0 1 1 1 0)) ++ [97] ++ [0, 0, 0, 0])
      (some (fun _ => true))
      = t3pReadWords
        ([84, 51, 80, 54] ++ [6, 0] ++ le16 1 ++ le16 1 ++ le32 1 ++ le64 0
          ++ le32 (crc32_acc (t3pHdrCrcBytes 6 0 1 1 1 0)) ++ [97] ++ [0, 0, 0, 0])
        27 0 ∧
    t3v_read_frame
      ([84, 51, 86, 54] ++ [6, 0] ++ le16 1 ++ le16 1 ++ le64 1 ++ le32 0
        ++ le32 (crc32_acc (t3vHdrCrcBytes 6 0 1 1 1 0)) ++ le64 46 ++ le64 0
        ++ le32 1 ++ [97]) 0 (some (fun _ => false)) = (false, []) := by
  refine ⟨?_, ?_, ?_⟩
  · exact c5_approve_gate_blocks_payload.1 6 0 1 1 0 [97] [0, 0, 0, 0]
      (fun _ => false) (by decide) (by decide) (by decide) (by decide) (by decide)
      (by decide) rfl
  · exact c5_approve_gate_blocks_payload.2.1 6 0 1 1 0 [97] [0, 0, 0, 0]
      (fun _ => true) (by decide) (by decide) (by decide) (by decide) (by decide)
      (by decide) rfl
  · exact c5_approve_gate_blocks_payload.2.2
      ([84, 51, 86, 54] ++ [6, 0] ++ le16 1 ++ le16 1 ++ le64 1 ++ le32 0
        ++ le32 (crc32_acc (t3vHdrCrcBytes 6 0 1 1 1 0)) ++ le64 46 ++ le64 0
        ++ le32 1 ++ [97]) 0 1 46 0 1 [(46, 0, 1)] [97] (fun _ => false)
      (by decide) (by decide) (by decide) (by decide) rfl

lemma tick_allowed_roots (pol : Policy) :
    (tick_and_drop_preps pol).allowed_roots = pol.allowed_roots := rfl

lemma tick_max_depth (pol : Policy) :
    (tick_and_drop_preps pol).max_depth = pol.max_depth := rfl

lemma tick_memberships (pol : Policy) :
    (tick_and_drop_preps pol).memberships = pol.memberships := rfl

lemma tick_selfm (pol : Policy) :
    (tick_and_drop_preps pol).selfm = pol.selfm := rfl

lemma tick_internal_allow (pol : Policy) :
    (tick_and_drop_preps pol).internal_allow = pol.internal_allow := rfl

lemma tick_coexist_allow (pol : Policy) :
    (tick_and_drop_preps pol).coexist_allow = pol.coexist_allow := rfl

lemma tick_visual_whitelist (pol : Policy) :
    (tick_and_drop_preps pol).visual_whitelist = pol.visual_whitelist := rfl

lemma tick_neighbor_cb (pol : Policy) :
    (tick_and_drop_preps pol).neighbor_cb = pol.neighbor_cb := rfl

lemma tick_ttl_global_max (pol : Policy) :
    (tick_and_drop_preps pol).ttl_global_max = pol.ttl_global_max := rfl

lemma tick_hops_global_max (pol : Policy) :
    (tick_and_drop_preps pol).hops_global_max = pol.hops_global_max := rfl

lemma tick_enable_overlap_redirect (pol : Policy) :
    (tick_and_drop_preps pol).enable_overlap_redirect
      = pol.enable_overlap_redirect := rfl

lemma tick_prepare_cb (pol : Policy) :
    (tick_and_drop_preps pol).prepare_cb = pol.prepare_cb := rfl

lemma tick_rotor_tick (pol : Policy) :
    (tick_and_drop_preps pol).rotor_tick = pol.rotor_tick := rfl

lemma find_prep_append (cache : List PrepEntry) (req tgt : List Nat) (w : Nat)
    (h : find_prep cache req = none) :
    find_prep (cache ++ [⟨req, tgt, w⟩]) req = some ⟨req, tgt, w⟩ := by
  unfold find_prep at *
  rw [List.find?_append, h]
  simp [List.find?]

/-- C8 counterexample: with a policy whose only knowledge of the root
"a/" is the coexist rule "a/c" and whose prepare callback answers true
with an EMPTY target, the meta "a/b" with route_ttl 1 reaches the
round-1 PREP branch (candidates non-empty, phase 0, TTL and hops in
range), the callback returns true, no redirect is emitted — but no
prepared target is cached, refuting the claimed "iff the prepare
callback returned true". -/
theorem c8_counterexample :
    overlap_bottom_candidates (tick_and_drop_preps polC8)
        (extract_build_from_meta metaC8) ≠ [] ∧
    (extract_build_from_meta metaC8).route_phase = 0 ∧
    0 < min (extract_build_from_meta metaC8).route_ttl polC8.ttl_global_max ∧
    (extract_build_from_meta metaC8).route_hops < polC8.hops_global_max ∧
    (match polC8.prepare_cb with
      | some pc => (pc (extract_build_from_meta metaC8).domain (strBytes "a/c")
          (extract_build_from_meta metaC8)).1
      | none => false) = true ∧
    (decide_ex polC8 metaC8).2.next.should_redirect = false ∧
    find_prep (decide_ex polC8 metaC8).1.prepared_cache
      (extract_build_from_meta metaC8).domain = none := by
  refine ⟨by decide, by decide, by decide, by decide, rfl, by decide, by decide⟩

/-- C8 (amended): on the round-1 PREP branch (fall-through past the
internal/coexist/neighbour decisions, positive capped TTL, hops below
the cap, overlap candidates non-empty, route_phase = 0), with a prepare
callback constantly answering (b, tgt) and no surviving cache entry for
the requester, `decide_ex` emits no redirect, and after the call a
prepared entry for the requester's domain exists iff the callback
returned true AND a non-empty target. -/
theorem c8_prep_round_no_redirect_cache_gate
    (pol0 : Policy) (meta : List Nat) (b : Bool) (tgt : List Nat)
    (hroots : pol0.allowed_roots = [])
    (hdepth : domain_depth (extract_build_from_meta meta).domain ≤ pol0.max_depth)
    (hmem : pol0.memberships.any
      (fun m => match_membership m (extract_build_from_meta meta)) = false)
    (hself : pol0.selfm.domainPre = [])
    (hallow : pol0.internal_allow.any
      (fun a => match_allow a (extract_build_from_meta meta)) = false)
    (hcoex : pol0.coexist_allow.find?
      (fun c => match_coexist c (extract_build_from_meta meta)) = none)
    (hneigh : pol0.neighbor_cb = none)
    (httl : 0 < min (extract_build_from_meta meta).route_ttl pol0.ttl_global_max)
    (hhops : (extract_build_from_meta meta).route_hops < pol0.hops_global_max)
    (hen : pol0.enable_overlap_redirect = true)
    (hcands : overlap_bottom_candidates (tick_and_drop_preps pol0)
      (extract_build_from_meta meta) ≠ [])
    (hphase : (extract_build_from_meta meta).route_phase = 0)
    (hprep : pol0.prepare_cb = some (fun _ _ _ => (b, tgt)))
    (hnoprev : find_prep (tick_and_drop_preps pol0).prepared_cache
      (extract_build_from_meta meta).domain = none) :
    (decide_ex pol0 meta).2.next.should_redirect = false ∧
    (find_prep (decide_ex pol0 meta).1.prepared_cache
        (extract_build_from_meta meta).domain ≠ none
      ↔ b = true ∧ tgt ≠ []) := by
  rcases hres : decide_ex pol0 meta with ⟨p2, d2⟩
  simp only [decide_ex, tick_allowed_roots, tick_max_depth, tick_memberships,
    tick_selfm, tick_internal_allow, tick_coexist_allow, tick_neighbor_cb,
    tick_ttl_global_max, tick_hops_global_max, tick_enable_overlap_redirect,
    tick_prepare_cb, hroots, hmem, hself, hallow, hcoex, hneigh, hen,
    hprep] at hres
  rw [if_neg (by simp)] at hres
  rw [if_neg (show ¬(0 < pol0.max_depth ∧
    pol0.max_depth < domain_depth (extract_build_from_meta meta).domain) by
    omega)] at hres
  rw [if_neg (by simp)] at hres
  rw [if_neg (by simp)] at hres
  rw [if_neg (by simp)] at hres
  rw [if_neg (by simp)] at hres
  rw [if_pos ⟨httl, hhops⟩] at hres
  rw [if_pos trivial] at hres
  rw [if_pos hcands] at hres
  rw [if_pos (show (extract_build_from_meta meta).route_phase < 1 by omega)] at hres
  try dsimp only at hres
  by_cases hb : (b && (tgt != [])) = true
  · rw [if_pos hb, hnoprev] at hres
    try dsimp only at hres
    injection hres with h1 h2
    subst h1
    subst h2
    have hb' : b = true ∧ (tgt != []) = true := by simpa using hb
    refine ⟨rfl, ?_⟩
    dsimp only
    rw [find_prep_append _ _ tgt 1 hnoprev]
    constructor
    · intro _
      exact ⟨hb'.1, by simpa using hb'.2⟩
    · intro _
      simp
  · rw [if_neg hb] at hres
    injection hres with h1 h2
    subst h1
    subst h2
    refine ⟨rfl, ?_⟩
    dsimp only
    rw [hnoprev]
    constructor
    · intro h
      exact absurd rfl h
    · rintro ⟨hb1, ht⟩
      exact absurd (by simp [hb1, ht]) hb

/-- C8 witness: the amended theorem at `polC8w` (prepare answers true
with target "a/c") and the meta "a/b"/route_ttl 1: no redirect, and the
prepared target is cached. -/
theorem c8_prep_round_no_redirect_cache_gate_witness :
    (decide_ex polC8w metaC8).2.next.should_redirect = false ∧
    (find_prep (decide_ex polC8w metaC8).1.prepared_cache
        (extract_build_from_meta metaC8).domain ≠ none
      ↔ true = true ∧ strBytes "a/c" ≠ []) :=
  c8_prep_round_no_redirect_cache_gate polC8w metaC8 true (strBytes "a/c")
    (by decide) (by decide) (by decide) (by decide) (by decide) (by decide)
    rfl (by decide) (by decide) rfl (by decide) (by decide) rfl (by decide)

/-- C9 counterexample: on the default policy with empty meta the capped
TTL is 0, `decide_ex` takes the no-route branch and returns the policy
with the rotor tick UNCHANGED (0, not 0 + 1), refuting "advances the
rotor tick by one on every call". -/
theorem c9_counterexample :
    (decide_ex Policy.make_default []).1.rotor_tick = 0 ∧
    Policy.make_default.rotor_tick = 0 ∧
    (decide_ex Policy.make_default []).1.rotor_tick
      ≠ Policy.make_default.rotor_tick + 1 := by
  refine ⟨by decide, by decide, by decide⟩

/-- C9 (amended): every call to `decide_ex` first prunes the prep cache
through `tick_and_drop_preps` (window decrement and expiry removal), and
the returned rotor tick is the old tick plus one exactly when
`rotor_advances` holds — the branch condition, copied from `decide_ex`'s
own guards, of reaching the overlap-redirect step with non-empty
candidates in round 1 (PREP) or with an accepted non-empty-target cached
entry in round 2 (ACCEPT) — and the old tick unchanged on every other
branch (allowed-roots/depth guards, Internal, CoexistAccepted via rule
or neighbour, zero capped TTL or exhausted hops, the round-2 misses, and
the rule-based redirect fall-backs).  The returned cache is the pruned
cache, the pruned cache with the requester's entry re-targeted, the
pruned cache with a new entry appended, or the pruned cache with the
requester's entry consumed. -/
theorem c9_rotor_and_prune_shape (pol0 : Policy) (meta : List Nat) :
    ((decide_ex pol0 meta).1.rotor_tick
      = if rotor_advances pol0 meta then pol0.rotor_tick + 1
        else pol0.rotor_tick) ∧
    ((decide_ex pol0 meta).1.prepared_cache
        = (tick_and_drop_preps pol0).prepared_cache ∨
      (∃ tgt, (decide_ex pol0 meta).1.prepared_cache
        = updatePrep (tick_and_drop_preps pol0).prepared_cache
            (extract_build_from_meta meta).domain
            (fun p => { p with target := tgt, window := 1 })) ∨
      (∃ tgt, (decide_ex pol0 meta).1.prepared_cache
        = (tick_and_drop_preps pol0).prepared_cache
            ++ [⟨(extract_build_from_meta meta).domain, tgt, 1⟩]) ∨
      (decide_ex pol0 meta).1.prepared_cache
        = updatePrep (tick_and_drop_preps pol0).prepared_cache
            (extract_build_from_meta meta).domain
            (fun q => { q with target := [], window := 0 })) := by
  rcases hres : decide_ex pol0 meta with ⟨p2, d2⟩
  simp only [rotor_advances]
  rw [show pol0.rotor_tick = (tick_and_drop_preps pol0).rotor_tick from rfl]
  simp only [decide_ex] at hres
  generalize htag : extract_build_from_meta meta = tg at hres ⊢
  generalize hpol : tick_and_drop_preps pol0 = pl at hres ⊢
  by_cases h1 : pl.allowed_roots ≠ [] ∧
      ¬(pl.allowed_roots.any fun root => startsWithB tg.domain root) = true
  · rw [if_pos h1] at hres ⊢
    injection hres with hA hB
    subst hA
    subst hB
    exact ⟨by simp, Or.inl rfl⟩
  rw [if_neg h1] at hres ⊢
  by_cases h2 : 0 < pl.max_depth ∧ pl.max_depth < domain_depth tg.domain
  · rw [if_pos h2] at hres ⊢
    injection hres with hA hB
    subst hA
    subst hB
    exact ⟨by simp, Or.inl rfl⟩
  rw [if_neg h2] at hres ⊢
  by_cases h3 : ((pl.memberships.any fun m => match_membership m tg) ||
      pl.selfm.domainPre != [] && startsWithB tg.domain pl.selfm.domainPre &&
        match_prefix_hex tg.build_hash pl.selfm.hashPre) = true
  · rw [if_pos h3] at hres ⊢
    injection hres with hA hB
    subst hA
    subst hB
    exact ⟨by simp, Or.inl rfl⟩
  rw [if_neg h3] at hres ⊢
  by_cases h4 : (pl.internal_allow.any fun a => match_allow a tg) = true
  · rw [if_pos h4] at hres ⊢
    injection hres with hA hB
    subst hA
    subst hB
    exact ⟨by simp, Or.inl rfl⟩
  rw [if_neg h4] at hres ⊢
  by_cases h5 : (match List.find? (fun c => match_coexist c tg) pl.coexist_allow with
      | none => false
      | some val => pl.visual_whitelist == [] ||
          pl.visual_whitelist.any fun root => startsWithB tg.domain root) = true
  · rw [if_pos h5] at hres ⊢
    injection hres with hA hB
    subst hA
    subst hB
    exact ⟨by simp, Or.inl rfl⟩
  rw [if_neg h5] at hres ⊢
  by_cases h6 : (match pl.neighbor_cb with
      | some q => q tg
      | none => false) = true
  · rw [if_pos h6] at hres ⊢
    injection hres with hA hB
    subst hA
    subst hB
    exact ⟨by simp, Or.inl rfl⟩
  rw [if_neg h6] at hres ⊢
  by_cases h7 : 0 < min tg.route_ttl pl.ttl_global_max ∧
      tg.route_hops < pl.hops_global_max
  · rw [if_pos h7] at hres ⊢
    generalize hcand : (if pl.enable_overlap_redirect = true then
      overlap_bottom_candidates pl tg else []) = cands at hres ⊢
    by_cases h8 : cands ≠ []
    · rw [if_pos h8] at hres ⊢
      by_cases h9 : tg.route_phase < 1
      · rw [if_pos h9] at hres ⊢
        rcases hpc : pl.prepare_cb with _ | prep
        · simp only [hpc] at hres
          injection hres with hA hB
          subst hA
          subst hB
          exact ⟨by simp, Or.inl rfl⟩
        · simp only [hpc] at hres
          generalize hr0 : prep tg.domain
            (cands.getD ((seed_from tg + unb_from_bal_sum (tri_wave pl.rotor_tick)
              (bal_from_prox tg.pclass)) % cands.length) {}).domainPre tg
            = res0 at hres
          by_cases hc1 : (res0.1 && res0.2 != []) = true
          · rw [if_pos hc1] at hres
            rcases hfp : find_prep pl.prepared_cache tg.domain with _ | pe
            · simp only [hfp] at hres
              injection hres with hA hB
              subst hA
              subst hB
              exact ⟨by simp, Or.inr (Or.inr (Or.inl ⟨res0.2, rfl⟩))⟩
            · simp only [hfp] at hres
              injection hres with hA hB
              subst hA
              subst hB
              exact ⟨by simp, Or.inr (Or.inl ⟨res0.2, rfl⟩)⟩
          · rw [if_neg hc1] at hres
            injection hres with hA hB
            subst hA
            subst hB
            exact ⟨by simp, Or.inl rfl⟩
      · rw [if_neg h9] at hres ⊢
        rcases hfp : find_prep pl.prepared_cache tg.domain with _ | pe
        · simp only [hfp] at hres ⊢
          injection hres with hA hB
          subst hA
          subst hB
          exact ⟨by simp, Or.inl rfl⟩
        · simp only [hfp] at hres ⊢
          by_cases hok : ((match pl.accept_cb with
              | some acc => acc tg.domain pe.target tg
              | none => true) && pe.target != []) = true
          · rw [if_pos hok] at hres ⊢
            injection hres with hA hB
            subst hA
            subst hB
            exact ⟨by simp, Or.inr (Or.inr (Or.inr rfl))⟩
          · rw [if_neg hok] at hres ⊢
            injection hres with hA hB
            subst hA
            subst hB
            exact ⟨by simp, Or.inr (Or.inr (Or.inr rfl))⟩
    · rw [if_neg h8] at hres ⊢
      rcases hrd : List.find? (fun r => match_redirect r tg
          (min tg.route_ttl pl.ttl_global_max)) pl.redirects with _ | r
      · simp only [hrd] at hres
        rcases hms : List.find? (fun m => !startsWithB m.domainPre tg.domain)
            pl.memberships with _ | m
        · simp only [hms] at hres
          rcases hch : pl.coexist_allow.head? with _ | c
          · simp only [hch] at hres
            injection hres with hA hB
            subst hA
            subst hB
            exact ⟨by simp, Or.inl rfl⟩
          · simp only [hch] at hres
            injection hres with hA hB
            subst hA
            subst hB
            exact ⟨by simp, Or.inl rfl⟩
        · simp only [hms] at hres
          injection hres with hA hB
          subst hA
          subst hB
          exact ⟨by simp, Or.inl rfl⟩
      · simp only [hrd] at hres
        injection hres with hA hB
        subst hA
        subst hB
        exact ⟨by simp, Or.inl rfl⟩
  · rw [if_neg h7] at hres ⊢
    injection hres with hA hB
    subst hA
    subst hB
    exact ⟨by simp, Or.inl rfl⟩

end TIC
